import Mathlib

/-!
# muxw: registration, canonicalisation and dispatch

A shallow embedding of `muxw.go` (package `muxw`, a thin layer over Go's
`net/http` `ServeMux`) and theorems about it.

Modelling conventions.

* A Go `string` is a list of bytes (`GoString`); `len` is `List.length`,
  `+` is `++`, `s[i]` is a fallible index.
* An `http.Handler` is a function from a request and a world to a world. The
  world `σ` stands for everything a handler can observe or change (the
  response writer, captured variables, logs). Handlers and middleware values
  are taken to be non-nil; the not-found handler, which the source compares
  with `nil`, is an `Option`.
* A Go panic is an `Outcome.panicked msg`; every router operation returns the
  outcome together with the router as the call leaves it.
* `net/http`'s `ServeMux` is not part of the repository. It is represented by
  the list of registrations it holds and by three functions of that list, all
  left arbitrary: its lookup, its dispatch, and its refusal of a pattern
  (`mux.Handle` panics on a pattern it finds malformed or in conflict). It
  also carries a history of everything handed to `mux.Handle`, refused or
  not, so that what a call sends to the engine can be stated.
-/

namespace Muxw

/-- A Go `string`: a sequence of bytes. -/
abbrev GoString := List UInt8

/-- The bytes of a Go string literal (Go source text is UTF-8). -/
def str (s : String) : GoString := s.toList.flatMap String.utf8EncodeChar

/-- How a call ends: it returns, or it panics with a message. -/
inductive Outcome where
  | returned : Outcome
  | panicked (msg : String) : Outcome
deriving DecidableEq, Repr

/-! ## The parts of Go's `strings` package that `muxw.go` calls -/

namespace strings

/-- Go: `strings.HasSuffix(s, suffix)`, that is
`len(s) >= len(suffix) && s[len(s)-len(suffix):] == suffix`. -/
def HasSuffix (s suffix : GoString) : Bool :=
  decide (suffix.length ≤ s.length) && (s.drop (s.length - suffix.length) == suffix)

/-- Go: `strings.TrimSuffix(s, suffix)`: `s[:len(s)-len(suffix)]` when `s` has
the suffix, `s` otherwise. -/
def TrimSuffix (s suffix : GoString) : GoString :=
  if HasSuffix s suffix then s.take (s.length - suffix.length) else s

/-- Go: `strings.Split(s, sep)` for a separator of one byte, the only way
`muxw.go` calls it (`sep = "/"`): the pieces of `s` between occurrences of the
separator, in order. `Split("", "/")` is `[""]`. -/
def Split : GoString → UInt8 → List GoString
  | [], _ => [[]]
  | c :: cs, sep =>
    if c = sep then [] :: Split cs sep
    else
      match Split cs sep with
      | [] => [[c]]
      | seg :: rest => (c :: seg) :: rest

end strings

/-! ## The parts of `net/http` that `muxw.go` uses -/

namespace http

/-- The fields of `*http.Request` that routing looks at. -/
structure Request where
  Method : GoString
  Host : GoString
  Path : GoString
deriving DecidableEq, Repr

/-- Go: `http.Handler`, seen through its `ServeHTTP(w, req)`. -/
abbrev Handler (σ : Type) := Request → σ → σ

/-- Go: `http.HandlerFunc`. -/
abbrev HandlerFunc (σ : Type) := Request → σ → σ

/-- Modelled from the spec: the external routing engine (`net/http`'s
`*ServeMux`), which is not under `src/`. The spec gives it
`register(methodAndPattern, handler)` and
`lookup(request) -> (handler, matchedPattern)`, an empty matched pattern
meaning that no route was found, and a lookup-and-invoke operation. Here
`patterns` is the sequence of registrations the engine holds, oldest first;
`lookup` and `dispatch` are the engine's matching behaviour as functions of
that sequence, and `refuses` is its verdict on a new pattern given that
sequence: `none` when it accepts, the panic message when it refuses (a
malformed pattern, a conflict with a pattern it holds). None of the three is
constrained. `received` is a history, not a field of the engine: every
pattern and handler handed to `Handle` so far, accepted or refused. -/
structure ServeMux (σ : Type) where
  lookup : List (GoString × Handler σ) → Request → Handler σ × GoString
  dispatch : List (GoString × Handler σ) → Request → σ → σ
  refuses : List (GoString × Handler σ) → GoString → Option String
  patterns : List (GoString × Handler σ)
  received : List (GoString × Handler σ)

/-- Go: `http.NewServeMux()`: an engine with no registration. -/
def NewServeMux {σ : Type}
    (lookup : List (GoString × Handler σ) → Request → Handler σ × GoString)
    (dispatch : List (GoString × Handler σ) → Request → σ → σ)
    (refuses : List (GoString × Handler σ) → GoString → Option String) : ServeMux σ :=
  { lookup := lookup, dispatch := dispatch, refuses := refuses, patterns := [], received := [] }

/-- Go: `mux.Handle(pattern, handler)`: the engine registers the pattern, or
panics and registers nothing. Either way the call is entered in the
history. -/
def ServeMux.Handle {σ : Type} (mux : ServeMux σ) (pattern : GoString)
    (handler : Handler σ) : Outcome × ServeMux σ :=
  match mux.refuses mux.patterns pattern with
  | some msg =>
    (Outcome.panicked msg, { mux with received := mux.received ++ [(pattern, handler)] })
  | none =>
    (Outcome.returned,
      { mux with
        patterns := mux.patterns ++ [(pattern, handler)]
        received := mux.received ++ [(pattern, handler)] })

/-- Go: `mux.Handler(req)`. -/
def ServeMux.Handler {σ : Type} (mux : ServeMux σ) (req : Request) :
    http.Handler σ × GoString :=
  mux.lookup mux.patterns req

/-- Go: `mux.ServeHTTP(w, req)`. -/
def ServeMux.ServeHTTP {σ : Type} (mux : ServeMux σ) : http.Handler σ :=
  mux.dispatch mux.patterns

def MethodGet : GoString := str "GET"
def MethodHead : GoString := str "HEAD"
def MethodPost : GoString := str "POST"
def MethodPut : GoString := str "PUT"
def MethodPatch : GoString := str "PATCH"
def MethodDelete : GoString := str "DELETE"
def MethodConnect : GoString := str "CONNECT"
def MethodOptions : GoString := str "OPTIONS"
def MethodTrace : GoString := str "TRACE"

end http

/-! ## `muxw.go` -/

/-- Go: `type Middleware func(http.Handler) http.Handler`. -/
abbrev Middleware (σ : Type) := http.Handler σ → http.Handler σ

/-- Go: `type Router struct`. `once` is the done flag of the `sync.Once`.
`handler` is `nil` (`none`) until `init` runs; it is built around the pointer
`r.m`, so it sees the engine as it is when a request arrives, and is kept as a
function of the engine. -/
structure Router (σ : Type) where
  m : http.ServeMux σ
  mws : List (Middleware σ)
  once : Bool
  handler : Option (http.ServeMux σ → http.Handler σ)
  initted : Bool
  notFound : Option (http.HandlerFunc σ)

/-- Go: `NewRouter()`. The three arguments are the behaviour of the engine
that `http.NewServeMux()` returns. -/
def NewRouter {σ : Type}
    (lookup : List (GoString × http.Handler σ) → http.Request → http.Handler σ × GoString)
    (dispatch : List (GoString × http.Handler σ) → http.Request → σ → σ)
    (refuses : List (GoString × http.Handler σ) → GoString → Option String) : Router σ :=
  { m := http.NewServeMux lookup dispatch refuses, mws := [], once := false, handler := none,
    initted := false, notFound := none }

/-- Go: `chain(h, mws...)`. `slices.Reverse(mws)` reverses the caller's slice
in place, so the reversed slice is returned next to the handler. -/
def chain {σ : Type} (h : http.Handler σ) (mws : List (Middleware σ)) :
    http.Handler σ × List (Middleware σ) :=
  let mws := mws.reverse
  (mws.foldl (fun h mw => mw h) h, mws)

/-- Go: `(*Router).init`. -/
def Router.init {σ : Type} (r : Router σ) : Outcome × Router σ :=
  if r.initted then (Outcome.panicked "already initialized", r)
  else
    (Outcome.returned,
      { r with
        handler := some (fun mux => (chain mux.ServeHTTP r.mws).1)
        mws := (chain r.m.ServeHTTP r.mws).2
        initted := true })

/-- Go: `r.once.Do(r.init)`. A `sync.Once` counts a call that panicked as
done. -/
def Router.onceDo {σ : Type} (r : Router σ) : Outcome × Router σ :=
  if r.once then (Outcome.returned, r)
  else ((r.init).1, { (r.init).2 with once := true })

/-- Go: `(*Router).ServeHTTP`. -/
def Router.ServeHTTP {σ : Type} (r : Router σ) (req : http.Request) (w : σ) :
    Outcome × Router σ × σ :=
  match r.onceDo with
  | (Outcome.panicked msg, r) => (Outcome.panicked msg, r, w)
  | (Outcome.returned, r) =>
    let viaHandler : Outcome × Router σ × σ :=
      match r.handler with
      | none => (Outcome.panicked "invalid memory address or nil pointer dereference", r, w)
      | some h => (Outcome.returned, r, h r.m req w)
    match r.notFound with
    | some notFound =>
      if (r.m.Handler req).2 = [] then (Outcome.returned, r, notFound req w)
      else viaHandler
    | none => viaHandler

/-- Go: `isRemainderPattern`. An index expression out of range panics in Go;
here it gives `none`. Byte 47 is `/`, byte 123 is `{`, and `\x7d` in a string
literal is `}`. -/
def isRemainderPattern (path : GoString) : Option Bool :=
  let segments := strings.Split path 47
  match segments.getLast? with
  | none => none
  | some last =>
    if last.length < 6 then some false
    else
      match last[0]? with
      | none => none
      | some b => some (b == 123 && strings.HasSuffix last (str "...\x7d"))

/-- Go: `(*Router).Handle`. A panic of `r.m.Handle` ends the call: what
follows it in the source does not run. -/
def Router.Handle {σ : Type} (r : Router σ) (method path : GoString)
    (handler : http.Handler σ) : Outcome × Router σ :=
  if r.initted then (Outcome.panicked "already initialized", r)
  else if path = [] then (Outcome.panicked "path cannot be empty", r)
  else if method = [] then (Outcome.panicked "method cannot be empty", r)
  else
    match isRemainderPattern path with
    | none => (Outcome.panicked "index out of range", r)
    | some true =>
      ((r.m.Handle (method ++ str " " ++ path) handler).1,
        { r with m := (r.m.Handle (method ++ str " " ++ path) handler).2 })
    | some false =>
      if path = str "/" then
        ((r.m.Handle (method ++ str " /{$}") handler).1,
          { r with m := (r.m.Handle (method ++ str " /{$}") handler).2 })
      else
        let path := strings.TrimSuffix path (str "/")
        let path := strings.TrimSuffix path (str "/{$}")
        match r.m.Handle (method ++ str " " ++ path) handler with
        | (Outcome.panicked msg, m1) => (Outcome.panicked msg, { r with m := m1 })
        | (Outcome.returned, m1) =>
          let path := path ++ str "/{$}"
          ((m1.Handle (method ++ str " " ++ path) handler).1,
            { r with m := (m1.Handle (method ++ str " " ++ path) handler).2 })

/-- Go: `(*Router).Get`. -/
def Router.Get {σ : Type} (r : Router σ) (path : GoString) (hf : http.HandlerFunc σ) :
    Outcome × Router σ :=
  r.Handle http.MethodGet path hf

/-- Go: `(*Router).Head`. -/
def Router.Head {σ : Type} (r : Router σ) (path : GoString) (hf : http.HandlerFunc σ) :
    Outcome × Router σ :=
  r.Handle http.MethodHead path hf

/-- Go: `(*Router).Post`. -/
def Router.Post {σ : Type} (r : Router σ) (path : GoString) (hf : http.HandlerFunc σ) :
    Outcome × Router σ :=
  r.Handle http.MethodPost path hf

/-- Go: `(*Router).Put`. -/
def Router.Put {σ : Type} (r : Router σ) (path : GoString) (hf : http.HandlerFunc σ) :
    Outcome × Router σ :=
  r.Handle http.MethodPut path hf

/-- Go: `(*Router).Patch`. -/
def Router.Patch {σ : Type} (r : Router σ) (path : GoString) (hf : http.HandlerFunc σ) :
    Outcome × Router σ :=
  r.Handle http.MethodPatch path hf

/-- Go: `(*Router).Delete`. -/
def Router.Delete {σ : Type} (r : Router σ) (path : GoString) (hf : http.HandlerFunc σ) :
    Outcome × Router σ :=
  r.Handle http.MethodDelete path hf

/-- Go: `(*Router).Connect`. -/
def Router.Connect {σ : Type} (r : Router σ) (path : GoString) (hf : http.HandlerFunc σ) :
    Outcome × Router σ :=
  r.Handle http.MethodConnect path hf

/-- Go: `(*Router).Options`. -/
def Router.Options {σ : Type} (r : Router σ) (path : GoString) (hf : http.HandlerFunc σ) :
    Outcome × Router σ :=
  r.Handle http.MethodOptions path hf

/-- Go: `(*Router).Trace`. -/
def Router.Trace {σ : Type} (r : Router σ) (path : GoString) (hf : http.HandlerFunc σ) :
    Outcome × Router σ :=
  r.Handle http.MethodTrace path hf

/-- Go: `(*Router).SetNotFoundHandler`. A `nil` argument is `none`. -/
def Router.SetNotFoundHandler {σ : Type} (r : Router σ) (hf : Option (http.HandlerFunc σ)) :
    Outcome × Router σ :=
  (Outcome.returned, { r with notFound := hf })

/-- Go: `(*Router).Use`. -/
def Router.Use {σ : Type} (r : Router σ) (mws : List (Middleware σ)) : Outcome × Router σ :=
  if r.initted then (Outcome.panicked "already initialized", r)
  else (Outcome.returned, { r with mws := r.mws ++ mws })

/-- Go: `(*Router).Mount`. -/
def Router.Mount {σ : Type} (r : Router σ) (pathPrefix : GoString) (h : http.Handler σ) :
    Outcome × Router σ :=
  ((r.m.Handle (strings.TrimSuffix pathPrefix (str "/") ++ str "/") h).1,
    { r with m := (r.m.Handle (strings.TrimSuffix pathPrefix (str "/") ++ str "/") h).2 })

/-- Go: `(*Router).Handler`. -/
def Router.Handler {σ : Type} (r : Router σ) (req : http.Request) :
    http.Handler σ × GoString :=
  r.m.Handler req

/-! ## Routers a program can have -/

/-- The routers a program can reach: `NewRouter()` followed by any calls of
the exported operations (the nine method shorthands are `Handle`). -/
inductive Router.Reachable {σ : Type} : Router σ → Prop where
  | new (lookup : List (GoString × http.Handler σ) → http.Request → http.Handler σ × GoString)
      (dispatch : List (GoString × http.Handler σ) → http.Request → σ → σ)
      (refuses : List (GoString × http.Handler σ) → GoString → Option String) :
      Router.Reachable (NewRouter lookup dispatch refuses)
  | handle {r : Router σ} (method path : GoString) (handler : http.Handler σ) :
      Router.Reachable r → Router.Reachable (r.Handle method path handler).2
  | use {r : Router σ} (mws : List (Middleware σ)) :
      Router.Reachable r → Router.Reachable (r.Use mws).2
  | mount {r : Router σ} (p : GoString) (h : http.Handler σ) :
      Router.Reachable r → Router.Reachable (r.Mount p h).2
  | setNotFound {r : Router σ} (hf : Option (http.HandlerFunc σ)) :
      Router.Reachable r → Router.Reachable (r.SetNotFoundHandler hf).2
  | serve {r : Router σ} (req : http.Request) (w : σ) :
      Router.Reachable r → Router.Reachable (r.ServeHTTP req w).2.1

/-! ## Concrete runs

A world that is a log of names, handlers and middleware that write their name
to it, and a small engine, so that the router can be run on explicit inputs. -/

/-- A terminal handler that records its name. -/
def logHandler (name : String) : http.Handler (List String) :=
  fun _ w => w ++ [name]

/-- A middleware that records its name and then calls its inner handler. -/
def logMiddleware (name : String) : Middleware (List String) :=
  fun h req w => h req (w ++ [name])

/-- Modelled from the spec: the method part of an engine pattern, the text
before the first space (byte 32), empty when the pattern has no space. The
engine is not under `src/`. -/
def patternMethod (pattern : GoString) : GoString :=
  if (32 : UInt8) ∈ pattern then pattern.takeWhile (fun b => b != 32) else []

/-- Modelled from the spec: the path part of an engine pattern, the text after
the first space, or the whole pattern when it has no space. The engine is not
under `src/`. -/
def patternPath (pattern : GoString) : GoString :=
  if (32 : UInt8) ∈ pattern then (pattern.dropWhile (fun b => b != 32)).drop 1 else pattern

/-- Modelled from the spec: the refusals of the external engine, which is not
under `src/` and whose refusals the spec leaves to it. This instance, used for
the concrete runs, refuses a pattern whose path part does not begin with `/`
(byte 47) and a pattern the engine already holds, as `net/http` does, and
accepts every other pattern. -/
def demoRefuses {σ : Type} (patterns : List (GoString × http.Handler σ))
    (pattern : GoString) : Option String :=
  if (patternPath pattern).head? != some 47 then some "http: invalid pattern"
  else if patterns.any (fun reg => reg.1 == pattern) then some "http: pattern conflicts"
  else none

/-- Whether a literal pattern `METHOD PATH` or `METHOD PATH/{$}` matches the
request: same method, and the same path byte for byte. -/
def literalMatch (pattern : GoString) (req : http.Request) : Bool :=
  pattern == req.Method ++ str " " ++ req.Path ||
    (strings.HasSuffix req.Path (str "/") &&
      pattern == req.Method ++ str " " ++ req.Path ++ str "{$}")

/-- The lookup of an engine that knows literal patterns only: the oldest
registration that matches, or else the engine's own "no route" handler with an
empty pattern. -/
def literalLookup {σ : Type} (noRoute : http.Handler σ)
    (patterns : List (GoString × http.Handler σ)) (req : http.Request) :
    http.Handler σ × GoString :=
  match patterns.find? (fun p => literalMatch p.1 req) with
  | some p => (p.2, p.1)
  | none => (noRoute, [])

/-- The dispatch of that engine: look up, then invoke. -/
def literalDispatch {σ : Type} (noRoute : http.Handler σ)
    (patterns : List (GoString × http.Handler σ)) : http.Handler σ :=
  fun req w => (literalLookup noRoute patterns req).1 req w

/-- A fresh router over the literal engine, whose "no route" handler records
`404`. -/
def demoRouter : Router (List String) :=
  NewRouter (literalLookup (logHandler "404")) (literalDispatch (logHandler "404")) demoRefuses

/-- The router of `TestNotFoundWithMiddleware`: one middleware `A`, a handler
for `GET /`, and a not-found handler. -/
def notFoundRouter : Router (List String) :=
  (((demoRouter.Use [logMiddleware "A"]).2.Get (str "/") (logHandler "home")).2.SetNotFoundHandler
    (some (logHandler "notfound"))).2

/-- The request of `TestNotFoundWithMiddleware`: `POST /another`. -/
def anotherRequest : http.Request :=
  { Method := str "POST", Host := str "example.com", Path := str "/another" }

/-- A request the router of `TestNotFoundWithMiddleware` has a route for:
`GET /`. -/
def homeRequest : http.Request :=
  { Method := str "GET", Host := str "example.com", Path := str "/" }

/-! ## Sequences of calls -/

/-- A call a program can make on a router, with its arguments. -/
inductive Op (σ : Type) where
  | handle (method path : GoString) (handler : http.Handler σ) : Op σ
  | use (mws : List (Middleware σ)) : Op σ
  | mount (p : GoString) (h : http.Handler σ) : Op σ
  | setNotFound (hf : Option (http.HandlerFunc σ)) : Op σ
  | serve (req : http.Request) (w : σ) : Op σ

/-- The router as a call leaves it, whether the call returned or panicked. -/
def Router.apply {σ : Type} (r : Router σ) : Op σ → Router σ
  | Op.handle method path handler => (r.Handle method path handler).2
  | Op.use mws => (r.Use mws).2
  | Op.mount p h => (r.Mount p h).2
  | Op.setNotFound hf => (r.SetNotFoundHandler hf).2
  | Op.serve req w => (r.ServeHTTP req w).2.1

/-- The router after a sequence of calls, made in order. -/
def Router.applyAll {σ : Type} (r : Router σ) (ops : List (Op σ)) : Router σ :=
  ops.foldl Router.apply r

/-- What the engine of `after` has been handed beyond what the engine of
`before` had been handed: the registrations that a call which turned `before`
into `after` sent to the engine, in order, accepted or refused. -/
def Router.sent {σ : Type} (before after : Router σ) : List (GoString × http.Handler σ) :=
  after.m.received.drop before.m.received.length

/-- A `*Router` used as an `http.Handler` (the source asserts
`var _ http.Handler = &Router{}`): its `ServeHTTP`, seen by the world it
leaves. This stands for a router on which nothing is registered after it has
been handed over. -/
def Router.toHandler {σ : Type} (r : Router σ) : http.Handler σ :=
  fun req w => (r.ServeHTTP req w).2.2

/-! ## An engine with prefix and wildcard patterns -/

/-- Modelled from the spec: a wildcard segment `{name}` of an engine pattern
(bytes 123 and 125 are the braces). The engine is not under `src/`. -/
def isWildcardSegment (seg : GoString) : Bool :=
  seg.head? == some 123 && seg.getLast? == some 125

/-- Modelled from the spec: a remainder segment `{name...}` of an engine
pattern. The engine is not under `src/`. -/
def isRemainderSegment (seg : GoString) : Bool :=
  decide (6 ≤ seg.length) && seg.head? == some 123 && strings.HasSuffix seg (str "...\x7d")

/-- Modelled from the spec: one pattern segment against one request segment: a
wildcard takes any non-empty segment, a literal takes itself. The engine is
not under `src/`. -/
def matchSegment (p seg : GoString) : Bool :=
  if isWildcardSegment p then !seg.isEmpty else p == seg

/-- Modelled from the spec: the segments of a pattern path against the
segments of a request path ("standard longest-prefix/wildcard-segment
semantics"). A last pattern segment that is empty (the pattern ends in `/`) or
a remainder segment takes whatever is left, provided something is left; a last
segment `{$}` takes the end of a path that ends in `/`; every other segment
takes one request segment. The engine is not under `src/`. -/
def matchSegments : List GoString → List GoString → Bool
  | [], segs => segs.isEmpty
  | [p], segs =>
    if p.isEmpty || isRemainderSegment p then !segs.isEmpty
    else if p == str "{$}" then segs == [[]]
    else
      match segs with
      | [seg] => matchSegment p seg
      | _ => false
  | _ :: _ :: _, [] => false
  | p :: q :: ps, seg :: segs => matchSegment p seg && matchSegments (q :: ps) segs

/-- Modelled from the spec: whether an engine pattern matches a request. A
pattern without a method takes every method; a `GET` pattern also takes
`HEAD`. The engine is not under `src/`. -/
def patternMatches (pattern : GoString) (req : http.Request) : Bool :=
  (patternMethod pattern == [] || patternMethod pattern == req.Method ||
      (patternMethod pattern == str "GET" && req.Method == str "HEAD")) &&
    matchSegments (strings.Split (patternPath pattern) 47) (strings.Split req.Path 47)

/-- Modelled from the spec: among the registrations, the one to prefer: the
longer pattern path, the older registration on a tie. The engine is not under
`src/`. -/
def preferred {σ : Type} :
    List (GoString × http.Handler σ) → Option (GoString × http.Handler σ)
  | [] => none
  | reg :: regs =>
    match preferred regs with
    | none => some reg
    | some best =>
      if (patternPath reg.1).length < (patternPath best.1).length then some best else some reg

/-- Modelled from the spec: the engine's `lookup(request)`: the preferred
registration among those that match, or the engine's own "no route" handler
and an empty pattern. The engine is not under `src/`. -/
def segmentLookup {σ : Type} (noRoute : http.Handler σ)
    (patterns : List (GoString × http.Handler σ)) (req : http.Request) :
    http.Handler σ × GoString :=
  match preferred (patterns.filter (fun reg => patternMatches reg.1 req)) with
  | some reg => (reg.2, reg.1)
  | none => (noRoute, [])

/-- Modelled from the spec: the engine's lookup-and-invoke: the handler found
is called with the request as it came in. The engine is not under `src/`. -/
def segmentDispatch {σ : Type} (noRoute : http.Handler σ)
    (patterns : List (GoString × http.Handler σ)) : http.Handler σ :=
  fun req w => (segmentLookup noRoute patterns req).1 req w

/-- A fresh router over that engine. -/
def segmentRouter {σ : Type} (noRoute : http.Handler σ) : Router σ :=
  NewRouter (segmentLookup noRoute) (segmentDispatch noRoute) demoRefuses

/-- A sub-router with one `GET` handler, registered for `path`. -/
def subRouter {σ : Type} (noRoute : http.Handler σ) (path : GoString) (h : http.Handler σ) :
    Router σ :=
  ((segmentRouter noRoute).Get path h).2

/-- A parent router on which that sub-router is mounted with
`Mount("/prefix", sub)`. -/
def parentRouter {σ : Type} (noRoute : http.Handler σ) (path : GoString)
    (h : http.Handler σ) : Router σ :=
  ((segmentRouter noRoute).Mount (str "/prefix") (subRouter noRoute path h).toHandler).2

/-- A `GET` request for a path. -/
def getRequest (path : GoString) : http.Request :=
  { Method := str "GET", Host := str "example.com", Path := path }

/-- The router of `TestNotFoundWithMiddleware` after it has served a request:
a sealed router. -/
def servedRouter : Router (List String) :=
  (notFoundRouter.ServeHTTP anotherRequest []).2.1

/-! ## Facts about the string helpers -/

theorem strings.HasSuffix_iff (s suffix : GoString) :
    strings.HasSuffix s suffix = true ↔ suffix <:+ s := by
  unfold strings.HasSuffix
  rw [List.suffix_iff_eq_drop]
  simp only [Bool.and_eq_true, decide_eq_true_eq, beq_iff_eq]
  constructor
  · rintro ⟨_, h⟩
    exact h.symm
  · intro h
    refine ⟨?_, h.symm⟩
    have hlen := congrArg List.length h
    simp only [List.length_drop] at hlen
    omega

theorem strings.TrimSuffix_append (t suffix : GoString) :
    strings.TrimSuffix (t ++ suffix) suffix = t := by
  have h : strings.HasSuffix (t ++ suffix) suffix = true :=
    (strings.HasSuffix_iff _ _).2 (List.suffix_append t suffix)
  simp [strings.TrimSuffix, h]

theorem strings.TrimSuffix_of_not (s suffix : GoString) (h : ¬ suffix <:+ s) :
    strings.TrimSuffix s suffix = s := by
  have h' : strings.HasSuffix s suffix = false := by
    cases hs : strings.HasSuffix s suffix
    · rfl
    · exact absurd ((strings.HasSuffix_iff _ _).1 hs) h
  simp [strings.TrimSuffix, h']

theorem strings.TrimSuffix_cases (s suffix : GoString) :
    s = strings.TrimSuffix s suffix ++ suffix ∨
      (¬ suffix <:+ s ∧ strings.TrimSuffix s suffix = s) := by
  by_cases h : suffix <:+ s
  · obtain ⟨t, rfl⟩ := h
    left
    rw [strings.TrimSuffix_append]
  · exact Or.inr ⟨h, strings.TrimSuffix_of_not s suffix h⟩

theorem strings.Split_ne_nil (s : GoString) (sep : UInt8) : strings.Split s sep ≠ [] := by
  induction s with
  | nil => simp [strings.Split]
  | cons c cs ih =>
    unfold strings.Split
    split
    · simp
    · split <;> simp

theorem strings.Split_of_not_mem (s : GoString) (sep : UInt8) (h : sep ∉ s) :
    strings.Split s sep = [s] := by
  induction s with
  | nil => rfl
  | cons c cs ih =>
    have hc : c ≠ sep := fun e => h (by simp [e])
    have hcs : sep ∉ cs := fun e => h (by simp [e])
    simp [strings.Split, hc, ih hcs]

theorem strings.Split_append_sep (p t : GoString) (sep : UInt8) :
    strings.Split (p ++ sep :: t) sep = strings.Split p sep ++ strings.Split t sep := by
  induction p with
  | nil => simp [strings.Split]
  | cons c cs ih =>
    by_cases hc : c = sep
    · simp [strings.Split, hc, ih]
    · cases hsp : strings.Split cs sep with
      | nil => exact absurd hsp (strings.Split_ne_nil cs sep)
      | cons seg rest =>
        simp [strings.Split, hc, ih, hsp]

theorem strings.Split_getLast (pre seg : GoString) (sep : UInt8) (hseg : sep ∉ seg)
    (hpre : pre = [] ∨ [sep] <:+ pre) :
    (strings.Split (pre ++ seg) sep).getLast? = some seg := by
  rcases hpre with rfl | ⟨q, rfl⟩
  · simp [strings.Split_of_not_mem seg sep hseg]
  · rw [List.append_assoc, List.singleton_append, strings.Split_append_sep,
      strings.Split_of_not_mem seg sep hseg]
    simp

theorem strings.exists_last_segment (path : GoString) (sep : UInt8) :
    ∃ pre seg, path = pre ++ seg ∧ sep ∉ seg ∧ (pre = [] ∨ [sep] <:+ pre) := by
  induction path using List.reverseRecOn with
  | nil => exact ⟨[], [], rfl, by simp, Or.inl rfl⟩
  | append_singleton l a ih =>
    by_cases ha : a = sep
    · exact ⟨l ++ [a], [], by simp, by simp, Or.inr ⟨l, by simp [ha]⟩⟩
    · obtain ⟨pre, seg, rfl, hseg, hpre⟩ := ih
      refine ⟨pre, seg ++ [a], by simp, ?_, hpre⟩
      simp only [List.mem_append, List.mem_singleton, not_or]
      exact ⟨hseg, fun e => ha e.symm⟩

/-- The value of `isRemainderPattern` in terms of the last segment. -/
theorem isRemainderPattern_eq (pre seg : GoString) (hseg : (47 : UInt8) ∉ seg)
    (hpre : pre = [] ∨ [(47 : UInt8)] <:+ pre) :
    isRemainderPattern (pre ++ seg) =
      some (decide (6 ≤ seg.length) && (seg.head? == some 123) &&
        strings.HasSuffix seg (str "...\x7d")) := by
  unfold isRemainderPattern
  simp only [strings.Split_getLast pre seg 47 hseg hpre]
  by_cases hlen : seg.length < 6
  · have : ¬ 6 ≤ seg.length := by omega
    simp [hlen, this]
  · have h6 : 6 ≤ seg.length := by omega
    cases seg with
    | nil => simp at h6
    | cons b bs =>
      simp only [List.length_cons] at hlen h6
      have h5 : 5 ≤ bs.length := by omega
      simp [hlen, h5]

/-- `isRemainderPattern` always returns, and what it returns is decided by the
last segment of the path. -/
theorem isRemainderPattern_total (path : GoString) :
    ∃ pre seg : GoString,
      path = pre ++ seg ∧ (47 : UInt8) ∉ seg ∧ (pre = [] ∨ [(47 : UInt8)] <:+ pre) ∧
      (strings.Split path 47).getLast? = some seg ∧
      (isRemainderPattern path = some true ∨ isRemainderPattern path = some false) ∧
      (isRemainderPattern path = some true ↔
        6 ≤ seg.length ∧ [(123 : UInt8)] <+: seg ∧ str "...\x7d" <:+ seg) := by
  obtain ⟨pre, seg, rfl, hseg, hpre⟩ := strings.exists_last_segment path 47
  refine ⟨pre, seg, rfl, hseg, hpre, strings.Split_getLast pre seg 47 hseg hpre, ?_, ?_⟩
  · rw [isRemainderPattern_eq pre seg hseg hpre]
    cases (decide (6 ≤ seg.length) && (seg.head? == some 123) &&
      strings.HasSuffix seg (str "...\x7d")) <;> simp
  · rw [isRemainderPattern_eq pre seg hseg hpre]
    have hhead : (seg.head? == some (123 : UInt8)) = true ↔ [(123 : UInt8)] <+: seg := by
      cases seg with
      | nil => simp
      | cons b bs =>
        simp only [List.head?_cons, beq_iff_eq, Option.some.injEq, List.cons_prefix_cons,
          List.nil_prefix, and_true]
        exact eq_comm
    simp only [Option.some.injEq, Bool.and_eq_true, decide_eq_true_eq, hhead,
      strings.HasSuffix_iff, and_assoc]

theorem str_slash : str "/" = [47] := by decide

theorem str_strict : str "/{$}" = [47, 123, 36, 125] := by decide

theorem isRemainderPattern_append_slash (p : GoString) :
    isRemainderPattern (p ++ str "/") = some false := by
  have h := isRemainderPattern_eq (p ++ str "/") [] (by simp)
    (Or.inr ⟨p, by rw [str_slash]⟩)
  simpa using h

theorem isRemainderPattern_append_strict (p : GoString) :
    isRemainderPattern (p ++ str "/{$}") = some false := by
  have h := isRemainderPattern_eq (p ++ str "/") [123, 36, 125] (by decide)
    (Or.inr ⟨p, by rw [str_slash]⟩)
  rw [str_strict]
  rw [str_slash] at h
  simpa using h

/-! ## Facts about the engine -/

/-- A call of `mux.Handle` enters exactly its own arguments in the history,
whatever the engine's verdict. -/
theorem http.ServeMux.Handle_received {σ : Type} (mux : http.ServeMux σ) (pattern : GoString)
    (handler : http.Handler σ) :
    (mux.Handle pattern handler).2.received = mux.received ++ [(pattern, handler)] := by
  unfold http.ServeMux.Handle
  split <;> rfl

/-- When the engine accepts, `mux.Handle` returns and the pattern is
registered. -/
theorem http.ServeMux.Handle_accepted {σ : Type} (mux : http.ServeMux σ) (pattern : GoString)
    (handler : http.Handler σ) (h : mux.refuses mux.patterns pattern = none) :
    mux.Handle pattern handler =
      (Outcome.returned,
        { mux with
          patterns := mux.patterns ++ [(pattern, handler)]
          received := mux.received ++ [(pattern, handler)] }) := by
  unfold http.ServeMux.Handle
  rw [h]

/-- When the engine refuses, `mux.Handle` panics with the engine's message and
nothing is registered. -/
theorem http.ServeMux.Handle_refused {σ : Type} (mux : http.ServeMux σ) (pattern : GoString)
    (handler : http.Handler σ) (msg : String) (h : mux.refuses mux.patterns pattern = some msg) :
    mux.Handle pattern handler =
      (Outcome.panicked msg, { mux with received := mux.received ++ [(pattern, handler)] }) := by
  unfold http.ServeMux.Handle
  rw [h]

/-- The outcome of `mux.Handle` is decided by the engine's verdict. -/
theorem http.ServeMux.Handle_outcome {σ : Type} (mux : http.ServeMux σ) (pattern : GoString)
    (handler : http.Handler σ) :
    (mux.refuses mux.patterns pattern = none ∧
      (mux.Handle pattern handler).1 = Outcome.returned) ∨
    ∃ msg, mux.refuses mux.patterns pattern = some msg ∧
      (mux.Handle pattern handler).1 = Outcome.panicked msg := by
  cases hv : mux.refuses mux.patterns pattern with
  | none => exact Or.inl ⟨rfl, by rw [http.ServeMux.Handle_accepted mux pattern handler hv]⟩
  | some msg =>
    exact Or.inr ⟨msg, rfl, by rw [http.ServeMux.Handle_refused mux pattern handler msg hv]⟩

/-- A call of `mux.Handle` leaves the engine's behaviour as it was. -/
theorem http.ServeMux.Handle_refuses {σ : Type} (mux : http.ServeMux σ) (pattern : GoString)
    (handler : http.Handler σ) :
    (mux.Handle pattern handler).2.refuses = mux.refuses := by
  unfold http.ServeMux.Handle
  split <;> rfl

/-! ## Facts about the router's life cycle -/

/-- `Handle` on an unsealed router, for a general path: the source's two calls
of `r.m.Handle`, the second made only if the first returns. -/
theorem Router.Handle_general {σ : Type} (r : Router σ) (method path : GoString)
    (h : http.Handler σ) (hr : r.initted = false) (hm : method ≠ []) (hp : path ≠ [])
    (hroot : path ≠ str "/") (hrem : isRemainderPattern path = some false) :
    (∀ msg, r.m.refuses r.m.patterns (method ++ str " " ++
          strings.TrimSuffix (strings.TrimSuffix path (str "/")) (str "/{$}")) = some msg →
      r.Handle method path h =
        (Outcome.panicked msg,
          { r with m := { r.m with received := r.m.received ++
              [(method ++ str " " ++
                strings.TrimSuffix (strings.TrimSuffix path (str "/")) (str "/{$}"), h)] } })) ∧
    (r.m.refuses r.m.patterns (method ++ str " " ++
          strings.TrimSuffix (strings.TrimSuffix path (str "/")) (str "/{$}")) = none →
      r.Handle method path h =
        (((r.m.Handle (method ++ str " " ++
              strings.TrimSuffix (strings.TrimSuffix path (str "/")) (str "/{$}")) h).2.Handle
            (method ++ str " " ++
              (strings.TrimSuffix (strings.TrimSuffix path (str "/")) (str "/{$}") ++
              str "/{$}")) h).1,
          { r with m := ((r.m.Handle (method ++ str " " ++
              strings.TrimSuffix (strings.TrimSuffix path (str "/")) (str "/{$}")) h).2.Handle
            (method ++ str " " ++
              (strings.TrimSuffix (strings.TrimSuffix path (str "/")) (str "/{$}") ++
              str "/{$}")) h).2 })) := by
  have hi : ¬ r.initted = true := by simp [hr]
  constructor
  · intro msg hv
    unfold Router.Handle
    rw [if_neg hi, if_neg hp, if_neg hm, hrem]
    dsimp only
    rw [if_neg hroot, http.ServeMux.Handle_refused _ _ h msg hv]
  · intro hv
    unfold Router.Handle
    rw [if_neg hi, if_neg hp, if_neg hm, hrem]
    dsimp only
    rw [if_neg hroot, http.ServeMux.Handle_accepted _ _ h hv]

theorem Router.Handle_fields {σ : Type} (r : Router σ) (method path : GoString)
    (handler : http.Handler σ) :
    (r.Handle method path handler).2.once = r.once ∧
    (r.Handle method path handler).2.initted = r.initted ∧
    (r.Handle method path handler).2.handler = r.handler ∧
    (r.Handle method path handler).2.mws = r.mws ∧
    (r.Handle method path handler).2.notFound = r.notFound := by
  by_cases hi : r.initted = true
  · simp [Router.Handle, hi]
  by_cases hp : path = []
  · simp [Router.Handle, hi, hp]
  by_cases hm : method = []
  · simp [Router.Handle, hi, hp, hm]
  obtain ⟨_, _, _, _, _, _, hb, _⟩ := isRemainderPattern_total path
  rcases hb with hb | hb
  · simp [Router.Handle, hi, hp, hm, hb]
  · by_cases hroot : path = str "/"
    · have e1 : str "/" ≠ [] := by decide
      have e2 : isRemainderPattern (str "/") = some false := by decide
      subst hroot
      simp [Router.Handle, hi, hm, e1, e2]
    · have hr : r.initted = false := by simpa using hi
      obtain ⟨g1, g2⟩ := Router.Handle_general r method path handler hr hm hp hroot hb
      cases hv : r.m.refuses r.m.patterns (method ++ str " " ++
          strings.TrimSuffix (strings.TrimSuffix path (str "/")) (str "/{$}")) with
      | some msg =>
        rw [g1 msg hv]
        exact ⟨rfl, rfl, rfl, rfl, rfl⟩
      | none =>
        rw [g2 hv]
        exact ⟨rfl, rfl, rfl, rfl, rfl⟩

theorem Router.ServeHTTP_router {σ : Type} (r : Router σ) (req : http.Request) (w : σ) :
    (r.ServeHTTP req w).2.1 = r.onceDo.2 := by
  unfold Router.ServeHTTP
  split
  · next h => simp [h]
  · next h =>
    simp only [h]
    split
    · split_ifs <;> try rfl
      all_goals (split <;> rfl)
    · split <;> rfl

/-- On a reachable router the `sync.Once` has fired exactly when `initted` is
set, and exactly then the pipeline is there. -/
theorem Router.Reachable.inv {σ : Type} {r : Router σ} (h : r.Reachable) :
    r.once = r.initted ∧ r.handler.isSome = r.initted := by
  induction h with
  | new lookup dispatch refuses => simp [NewRouter]
  | @handle r0 method path handler _ ih =>
    obtain ⟨h1, h2, h3, _, _⟩ := Router.Handle_fields _ method path handler
    rw [h1, h2, h3]
    exact ih
  | use mws _ ih =>
    unfold Router.Use
    split_ifs <;> simpa using ih
  | mount p h _ ih => simpa [Router.Mount] using ih
  | setNotFound hf _ ih => simpa [Router.SetNotFoundHandler] using ih
  | @serve r0 req w _ ih =>
    rw [Router.ServeHTTP_router]
    unfold Router.onceDo
    split_ifs with ho
    · exact ih
    · have hi : r0.initted = false := by
        rw [← ih.1]
        simpa using ho
      simp [Router.init, hi]

/-- On a reachable router `r.once.Do(r.init)` returns and leaves a pipeline in
place: the one already stored, or, on a router not yet sealed, the one `init`
builds with `chain`. The engine and the not-found handler are as before. -/
theorem Router.Reachable.onceDo_returns {σ : Type} {r : Router σ} (h : r.Reachable) :
    r.onceDo.1 = Outcome.returned ∧ r.onceDo.2.m = r.m ∧
    r.onceDo.2.notFound = r.notFound ∧
    ∃ p, r.onceDo.2.handler = some p ∧
      (r.handler = some p ∨
        (r.handler = none ∧ p = fun mux => (chain mux.ServeHTTP r.mws).1)) := by
  obtain ⟨h1, h2⟩ := h.inv
  unfold Router.onceDo
  by_cases ho : r.once = true
  · have hs : r.handler.isSome = true := by rw [h2, ← h1, ho]
    obtain ⟨p, hp⟩ := Option.isSome_iff_exists.1 hs
    simp [ho, hp]
  · have hi : r.initted = false := by
      rw [← h1]
      simpa using ho
    have hn : r.handler = none := by
      rw [← Option.not_isSome_iff_eq_none, h2, hi]
      simp
    simp [ho, Router.init, hi, hn]

theorem notFoundRouter_reachable : notFoundRouter.Reachable :=
  Router.Reachable.setNotFound _
    (Router.Reachable.handle _ _ _ (Router.Reachable.use _ (Router.Reachable.new _ _ _)))

/-! ## Facts about what `Handle` sends to the engine -/

/-- The base that `Handle` derives from a path is empty only for the paths
`/`, `/{$}` and `/{$}/` (and the empty path). -/
theorem strings.base_ne_nil (p : GoString) (hp : p ≠ []) (hroot : p ≠ str "/")
    (h1 : p ≠ str "/{$}") (h2 : p ≠ str "/{$}/") :
    strings.TrimSuffix (strings.TrimSuffix p (str "/")) (str "/{$}") ≠ [] := by
  have e2 : str "/{$}/" = str "/{$}" ++ str "/" := by decide
  have c1 := strings.TrimSuffix_cases p (str "/")
  have c2 := strings.TrimSuffix_cases (strings.TrimSuffix p (str "/")) (str "/{$}")
  generalize strings.TrimSuffix (strings.TrimSuffix p (str "/")) (str "/{$}") = base at c2 ⊢
  generalize strings.TrimSuffix p (str "/") = p1 at c1 c2
  rintro rfl
  rcases c2 with k2 | ⟨_, k2⟩
  · rcases c1 with k1 | ⟨_, k1⟩
    · apply h2
      rw [k1, k2, e2]
      simp
    · apply h1
      rw [← k1, k2]
      simp
  · rcases c1 with k1 | ⟨_, k1⟩
    · apply hroot
      rw [k1, ← k2]
      simp
    · apply hp
      rw [← k1, ← k2]

/-- What a call sent to the engine, read off the history. -/
theorem Router.sent_of_received {σ : Type} (before after : Router σ)
    (l : List (GoString × http.Handler σ))
    (h : after.m.received = before.m.received ++ l) : Router.sent before after = l := by
  unfold Router.sent
  rw [h]
  simp

/-- What `Handle` sends for a general path on an unsealed router: the base
pattern, and after it, if the engine accepted the base pattern, the base
pattern with the strict-end marker. -/
theorem Router.Handle_general_sent {σ : Type} (r : Router σ) (method path : GoString)
    (h : http.Handler σ) (hr : r.initted = false) (hm : method ≠ []) (hp : path ≠ [])
    (hroot : path ≠ str "/") (hrem : isRemainderPattern path = some false) :
    (∀ msg, r.m.refuses r.m.patterns (method ++ str " " ++
          strings.TrimSuffix (strings.TrimSuffix path (str "/")) (str "/{$}")) = some msg →
      Router.sent r (r.Handle method path h).2 =
        [(method ++ str " " ++
          strings.TrimSuffix (strings.TrimSuffix path (str "/")) (str "/{$}"), h)]) ∧
    (r.m.refuses r.m.patterns (method ++ str " " ++
          strings.TrimSuffix (strings.TrimSuffix path (str "/")) (str "/{$}")) = none →
      Router.sent r (r.Handle method path h).2 =
        [(method ++ str " " ++
            strings.TrimSuffix (strings.TrimSuffix path (str "/")) (str "/{$}"), h),
          (method ++ str " " ++
            strings.TrimSuffix (strings.TrimSuffix path (str "/")) (str "/{$}") ++
            str "/{$}", h)]) := by
  obtain ⟨g1, g2⟩ := Router.Handle_general r method path h hr hm hp hroot hrem
  constructor
  · intro msg hv
    rw [g1 msg hv]
    exact Router.sent_of_received _ _ _ rfl
  · intro hv
    rw [g2 hv]
    apply Router.sent_of_received
    simp only [http.ServeMux.Handle_received, List.append_assoc, List.singleton_append]

/-- What a call of `Handle` sends to the engine, case by case. -/
theorem Router.Handle_sent {σ : Type} (r : Router σ) (method path : GoString)
    (h : http.Handler σ) :
    Router.sent r (r.Handle method path h).2 = [] ∨
    (isRemainderPattern path = some true ∧
      Router.sent r (r.Handle method path h).2 = [(method ++ str " " ++ path, h)]) ∨
    (path = str "/" ∧
      Router.sent r (r.Handle method path h).2 = [(method ++ str " /{$}", h)]) ∨
    (path ≠ str "/" ∧ isRemainderPattern path = some false ∧
      (Router.sent r (r.Handle method path h).2 =
          [(method ++ str " " ++
            strings.TrimSuffix (strings.TrimSuffix path (str "/")) (str "/{$}"), h)] ∨
        (r.m.refuses r.m.patterns (method ++ str " " ++
            strings.TrimSuffix (strings.TrimSuffix path (str "/")) (str "/{$}")) = none ∧
          Router.sent r (r.Handle method path h).2 =
            [(method ++ str " " ++
                strings.TrimSuffix (strings.TrimSuffix path (str "/")) (str "/{$}"), h),
              (method ++ str " " ++
                strings.TrimSuffix (strings.TrimSuffix path (str "/")) (str "/{$}") ++
                str "/{$}", h)]))) := by
  by_cases hi : r.initted = true
  · left
    simp [Router.Handle, Router.sent, hi]
  by_cases hp : path = []
  · left
    simp [Router.Handle, Router.sent, hi, hp]
  by_cases hm : method = []
  · left
    simp [Router.Handle, Router.sent, hi, hp, hm]
  obtain ⟨_, _, _, _, _, _, hb, _⟩ := isRemainderPattern_total path
  rcases hb with hb | hb
  · right
    left
    refine ⟨hb, Router.sent_of_received _ _ _ ?_⟩
    simp [Router.Handle, hi, hp, hm, hb, http.ServeMux.Handle_received]
  · by_cases hroot : path = str "/"
    · right
      right
      left
      refine ⟨hroot, Router.sent_of_received _ _ _ ?_⟩
      have e1 : str "/" ≠ [] := by decide
      have e2 : isRemainderPattern (str "/") = some false := by decide
      subst hroot
      simp [Router.Handle, hi, hm, e1, e2, http.ServeMux.Handle_received]
    · right
      right
      right
      have hr : r.initted = false := by simpa using hi
      obtain ⟨g1, g2⟩ := Router.Handle_general_sent r method path h hr hm hp hroot hb
      refine ⟨hroot, hb, ?_⟩
      cases hv : r.m.refuses r.m.patterns (method ++ str " " ++
          strings.TrimSuffix (strings.TrimSuffix path (str "/")) (str "/{$}")) with
      | some msg => exact Or.inl (g1 msg hv)
      | none => exact Or.inr ⟨rfl, g2 hv⟩

/-- `Handle` on an unsealed router, for a general path whose base pattern the
engine accepts: the second registration is sent, and the outcome is the
engine's verdict on it. -/
theorem Router.Handle_general_second {σ : Type} (r : Router σ) (method path : GoString)
    (h : http.Handler σ) (hr : r.initted = false) (hm : method ≠ []) (hp : path ≠ [])
    (hroot : path ≠ str "/") (hrem : isRemainderPattern path = some false)
    (hv : r.m.refuses r.m.patterns (method ++ str " " ++
          strings.TrimSuffix (strings.TrimSuffix path (str "/")) (str "/{$}")) = none) :
    (r.m.refuses
        (r.m.patterns ++ [(method ++ str " " ++
          strings.TrimSuffix (strings.TrimSuffix path (str "/")) (str "/{$}"), h)])
        (method ++ str " " ++
          strings.TrimSuffix (strings.TrimSuffix path (str "/")) (str "/{$}") ++ str "/{$}") = none →
      r.Handle method path h =
        (Outcome.returned,
          { r with m := { r.m with
            patterns := r.m.patterns ++
              [(method ++ str " " ++
                  strings.TrimSuffix (strings.TrimSuffix path (str "/")) (str "/{$}"), h),
                (method ++ str " " ++
                  strings.TrimSuffix (strings.TrimSuffix path (str "/")) (str "/{$}") ++
                  str "/{$}", h)]
            received := r.m.received ++
              [(method ++ str " " ++
                  strings.TrimSuffix (strings.TrimSuffix path (str "/")) (str "/{$}"), h),
                (method ++ str " " ++
                  strings.TrimSuffix (strings.TrimSuffix path (str "/")) (str "/{$}") ++
                  str "/{$}", h)] } })) ∧
    (∀ msg, r.m.refuses
        (r.m.patterns ++ [(method ++ str " " ++
          strings.TrimSuffix (strings.TrimSuffix path (str "/")) (str "/{$}"), h)])
        (method ++ str " " ++
          strings.TrimSuffix (strings.TrimSuffix path (str "/")) (str "/{$}") ++ str "/{$}") =
          some msg →
      r.Handle method path h =
        (Outcome.panicked msg,
          { r with m := { r.m with
            patterns := r.m.patterns ++
              [(method ++ str " " ++
                  strings.TrimSuffix (strings.TrimSuffix path (str "/")) (str "/{$}"), h)]
            received := r.m.received ++
              [(method ++ str " " ++
                  strings.TrimSuffix (strings.TrimSuffix path (str "/")) (str "/{$}"), h),
                (method ++ str " " ++
                  strings.TrimSuffix (strings.TrimSuffix path (str "/")) (str "/{$}") ++
                  str "/{$}", h)] } })) := by
  obtain ⟨_, g2⟩ := Router.Handle_general r method path h hr hm hp hroot hrem
  have g := g2 hv
  generalize strings.TrimSuffix (strings.TrimSuffix path (str "/")) (str "/{$}") = base at *
  have e : method ++ str " " ++ (base ++ str "/{$}") = method ++ str " " ++ base ++ str "/{$}" := by
    simp only [List.append_assoc]
  rw [e, http.ServeMux.Handle_accepted _ _ h hv] at g
  constructor
  · intro hv2
    rw [g, http.ServeMux.Handle_accepted _ _ h hv2]
    simp only [List.append_assoc, List.singleton_append]
  · intro msg hv2
    rw [g, http.ServeMux.Handle_refused _ _ h msg hv2]
    simp only [List.append_assoc, List.singleton_append]

/-! ## The claims -/

/-- C1 (the code departs from the claim). On the router of
`TestNotFoundWithMiddleware` (middleware `A`, a handler for `GET /`, a
not-found handler) the request `POST /another` matches no pattern, and
`ServeHTTP` runs the not-found handler alone: the log is `notfound`, not
`A, notfound`. A request that has a route, `GET /`, does go through `A`. -/
theorem ServeHTTP_notFound_bypasses_middleware :
    notFoundRouter.Reachable ∧
    notFoundRouter.mws.length = 1 ∧
    notFoundRouter.notFound.isSome = true ∧
    (notFoundRouter.m.Handler anotherRequest).2 = [] ∧
    (notFoundRouter.ServeHTTP anotherRequest []).1 = Outcome.returned ∧
    (notFoundRouter.ServeHTTP anotherRequest []).2.2 = ["notfound"] ∧
    (notFoundRouter.ServeHTTP anotherRequest []).2.2 ≠ ["A", "notfound"] ∧
    (notFoundRouter.ServeHTTP homeRequest []).2.2 = ["A", "home"] := by
  exact ⟨notFoundRouter_reachable, by decide, by decide, by decide, by decide, by decide,
    by decide, by decide⟩

/-- C2. On every reachable router and for every request and world:
if a not-found handler `nf` is set and the engine's lookup gives an empty
pattern, `ServeHTTP` returns and the world it leaves is `nf` applied once to
the incoming world, nothing else having run; in every other case (no
not-found handler, or a pattern matched) it returns and the world it leaves is
the composed pipeline applied to the request (the pipeline the router holds,
or on a router not yet sealed the one `chain` builds from the engine and the
declared middleware), which is also what the same router with its not-found
handler removed produces. -/
theorem ServeHTTP_notFound_iff {σ : Type} (r : Router σ) (hr : r.Reachable)
    (req : http.Request) (w : σ) :
    (∀ nf, r.notFound = some nf → (r.m.Handler req).2 = [] →
      (r.ServeHTTP req w).1 = Outcome.returned ∧ (r.ServeHTTP req w).2.2 = nf req w) ∧
    ((r.notFound = none ∨ (r.m.Handler req).2 ≠ []) →
      (r.ServeHTTP req w).1 = Outcome.returned ∧
      (∃ p, (r.handler = some p ∨
            (r.handler = none ∧ p = fun mux => (chain mux.ServeHTTP r.mws).1)) ∧
          (r.ServeHTTP req w).2.1.handler = some p ∧
          (r.ServeHTTP req w).2.2 = p r.m req w) ∧
      (r.ServeHTTP req w).1 = ({ r with notFound := none }.ServeHTTP req w).1 ∧
      (r.ServeHTTP req w).2.2 = ({ r with notFound := none }.ServeHTTP req w).2.2) := by
  obtain ⟨h1, h2, h3, p, hp, hwhich⟩ := hr.onceDo_returns
  have hr0 : ({ r with notFound := none } : Router σ).Reachable :=
    Router.Reachable.setNotFound none hr
  obtain ⟨k1, k2, k3, q, hq, _⟩ := hr0.onceDo_returns
  have hpq : p = q := by
    have : r.onceDo.2.handler = ({ r with notFound := none } : Router σ).onceDo.2.handler := by
      unfold Router.onceDo Router.init
      split_ifs <;> rfl
    rw [hp, hq] at this
    exact Option.some.inj this
  subst hpq
  have hsplit : r.onceDo = (Outcome.returned, r.onceDo.2) := by rw [← h1]
  have ksplit : ({ r with notFound := none } : Router σ).onceDo =
      (Outcome.returned, ({ r with notFound := none } : Router σ).onceDo.2) := by rw [← k1]
  constructor
  · intro nf hnf hpat
    unfold Router.ServeHTTP
    rw [hsplit]
    simp [h2, h3, hnf, hpat]
  · intro hcase
    have hL : r.ServeHTTP req w = (Outcome.returned, r.onceDo.2, p r.m req w) := by
      unfold Router.ServeHTTP
      rw [hsplit]
      simp only [h2, h3, hp]
      rcases hcase with hnone | hpat
      · simp [hnone]
      · cases hnf : r.notFound with
        | none => simp
        | some nf => simp [hpat]
    have hR : ({ r with notFound := none } : Router σ).ServeHTTP req w =
        (Outcome.returned, ({ r with notFound := none } : Router σ).onceDo.2, p r.m req w) := by
      unfold Router.ServeHTTP
      rw [ksplit]
      simp only [k2, k3, hq]
    rw [hL, hR]
    exact ⟨rfl, ⟨p, hwhich, hp, rfl⟩, rfl, rfl⟩

/-- Witness for C2 on the router of `TestNotFoundWithMiddleware`: `POST /another`
(no pattern matches) leaves the world the not-found handler produces, and
`GET /` (a pattern matches) leaves the world the router without a not-found
handler produces. -/
theorem ServeHTTP_notFound_iff_witness :
    notFoundRouter.Reachable ∧
    notFoundRouter.notFound = some (logHandler "notfound") ∧
    (notFoundRouter.m.Handler anotherRequest).2 = [] ∧
    (notFoundRouter.ServeHTTP anotherRequest []).2.2 = logHandler "notfound" anotherRequest [] ∧
    (notFoundRouter.m.Handler homeRequest).2 ≠ [] ∧
    (notFoundRouter.ServeHTTP homeRequest []).2.2 =
      ({ notFoundRouter with notFound := none }.ServeHTTP homeRequest []).2.2 :=
  ⟨notFoundRouter_reachable, rfl, by decide,
    ((ServeHTTP_notFound_iff notFoundRouter notFoundRouter_reachable anotherRequest []).1
      (logHandler "notfound") rfl (by decide)).2,
    by decide,
    ((ServeHTTP_notFound_iff notFoundRouter notFoundRouter_reachable homeRequest []).2
      (Or.inr (by decide))).2.2.2⟩

/-- C3 (as stated it fails). The method `GET` and the path `hello` are
non-empty, and `hello` is neither `/` nor a remainder pattern; on a fresh
router the engine refuses the first pattern `Handle` derives, `GET hello`, so
`Handle` panics there: one registration has been sent, not two, and the
engine holds none. -/
theorem Handle_general_refused_sends_one :
    demoRouter.initted = false ∧ str "GET" ≠ [] ∧ str "hello" ≠ [] ∧
    str "hello" ≠ str "/" ∧ isRemainderPattern (str "hello") = some false ∧
    (demoRouter.Handle (str "GET") (str "hello") (logHandler "hello")).1 =
      Outcome.panicked "http: invalid pattern" ∧
    (Router.sent demoRouter
        (demoRouter.Handle (str "GET") (str "hello") (logHandler "hello")).2).map Prod.fst =
      [str "GET" ++ str " " ++ str "hello"] ∧
    (demoRouter.Handle (str "GET") (str "hello") (logHandler "hello")).2.m.patterns.map
      Prod.fst = [] := by
  exact ⟨rfl, by decide, by decide, by decide, by decide, by decide, by decide, by decide⟩

/-- C3, amended. For a non-empty method, any handler, and a non-empty path that
is not `/`, not a remainder pattern and not `/{$}` or `/{$}/`, `Handle` on an
unsealed router first sends `method + " " + base` to the engine, where `base`
is the path with one trailing `/` removed if present (`p1`) and then one
trailing `/{$}` removed if present; `base` is not empty. If the engine accepts
that pattern, `Handle` sends exactly two registrations, in this order:
`method + " " + base` and `method + " " + base + "/{$}"`, both with the given
handler; it returns, the engine holding both, if the engine accepts the second
too, and panics with the engine's message, the engine holding the first, if
not. If the engine refuses the first pattern, `Handle` panics with the
engine's message, the first registration is the only one sent, and the engine
holds nothing new. Nothing else in the router changes. -/
theorem Handle_general_two_registrations {σ : Type} (r : Router σ)
    (method path : GoString) (h : http.Handler σ)
    (hr : r.initted = false) (hm : method ≠ []) (hp : path ≠ [])
    (hroot : path ≠ str "/") (hrem : isRemainderPattern path = some false)
    (hs1 : path ≠ str "/{$}") (hs2 : path ≠ str "/{$}/") :
    ∃ p1 base : GoString,
      (path = p1 ++ str "/" ∨ (¬ str "/" <:+ path ∧ p1 = path)) ∧
      (p1 = base ++ str "/{$}" ∨ (¬ str "/{$}" <:+ p1 ∧ base = p1)) ∧
      base ≠ [] ∧
      (r.m.refuses r.m.patterns (method ++ str " " ++ base) = none →
        Router.sent r (r.Handle method path h).2 =
          [(method ++ str " " ++ base, h), (method ++ str " " ++ base ++ str "/{$}", h)] ∧
        (r.m.refuses (r.m.patterns ++ [(method ++ str " " ++ base, h)])
            (method ++ str " " ++ base ++ str "/{$}") = none →
          r.Handle method path h =
            (Outcome.returned,
              { r with m := { r.m with
                patterns := r.m.patterns ++
                  [(method ++ str " " ++ base, h), (method ++ str " " ++ base ++ str "/{$}", h)]
                received := r.m.received ++
                  [(method ++ str " " ++ base, h),
                    (method ++ str " " ++ base ++ str "/{$}", h)] } })) ∧
        (∀ msg, r.m.refuses (r.m.patterns ++ [(method ++ str " " ++ base, h)])
            (method ++ str " " ++ base ++ str "/{$}") = some msg →
          r.Handle method path h =
            (Outcome.panicked msg,
              { r with m := { r.m with
                patterns := r.m.patterns ++ [(method ++ str " " ++ base, h)]
                received := r.m.received ++
                  [(method ++ str " " ++ base, h),
                    (method ++ str " " ++ base ++ str "/{$}", h)] } }))) ∧
      (∀ msg, r.m.refuses r.m.patterns (method ++ str " " ++ base) = some msg →
        Router.sent r (r.Handle method path h).2 = [(method ++ str " " ++ base, h)] ∧
        r.Handle method path h =
          (Outcome.panicked msg,
            { r with m := { r.m with received := r.m.received ++
                [(method ++ str " " ++ base, h)] } })) := by
  obtain ⟨g1, _⟩ := Router.Handle_general r method path h hr hm hp hroot hrem
  obtain ⟨s1, s2⟩ := Router.Handle_general_sent r method path h hr hm hp hroot hrem
  refine ⟨strings.TrimSuffix path (str "/"),
    strings.TrimSuffix (strings.TrimSuffix path (str "/")) (str "/{$}"),
    strings.TrimSuffix_cases path (str "/"),
    strings.TrimSuffix_cases (strings.TrimSuffix path (str "/")) (str "/{$}"),
    strings.base_ne_nil path hp hroot hs1 hs2, ?_, ?_⟩
  · intro hv
    obtain ⟨k1, k2⟩ := Router.Handle_general_second r method path h hr hm hp hroot hrem hv
    exact ⟨s2 hv, k1, k2⟩
  · intro msg hv
    exact ⟨s1 msg hv, g1 msg hv⟩

/-- Witness for C3 as amended: `Handle("GET", "/hello/", h)` on a fresh router,
whose engine accepts `GET /hello` and then `GET /hello/{$}`. -/
theorem Handle_general_two_registrations_witness :
    (demoRouter.initted = false ∧ str "GET" ≠ [] ∧ str "/hello/" ≠ [] ∧
      str "/hello/" ≠ str "/" ∧ isRemainderPattern (str "/hello/") = some false ∧
      str "/hello/" ≠ str "/{$}" ∧ str "/hello/" ≠ str "/{$}/") ∧
    (∃ p1 base : GoString,
      (str "/hello/" = p1 ++ str "/" ∨ (¬ str "/" <:+ str "/hello/" ∧ p1 = str "/hello/")) ∧
      (p1 = base ++ str "/{$}" ∨ (¬ str "/{$}" <:+ p1 ∧ base = p1)) ∧
      base ≠ [] ∧
      (demoRouter.m.refuses demoRouter.m.patterns (str "GET" ++ str " " ++ base) = none →
        Router.sent demoRouter
            (demoRouter.Handle (str "GET") (str "/hello/") (logHandler "hello")).2 =
          [(str "GET" ++ str " " ++ base, logHandler "hello"),
            (str "GET" ++ str " " ++ base ++ str "/{$}", logHandler "hello")])) ∧
    (Router.sent demoRouter
        (demoRouter.Handle (str "GET") (str "/hello/") (logHandler "hello")).2).map Prod.fst =
      [str "GET /hello", str "GET /hello/{$}"] ∧
    (demoRouter.Handle (str "GET") (str "/hello/") (logHandler "hello")).1 = Outcome.returned :=
  ⟨⟨rfl, by decide, by decide, by decide, by decide, by decide, by decide⟩,
    (Handle_general_two_registrations demoRouter (str "GET") (str "/hello/")
      (logHandler "hello") rfl (by decide) (by decide) (by decide) (by decide) (by decide)
      (by decide)).imp fun _ hp1 => hp1.imp fun _ hb =>
        ⟨hb.1, hb.2.1, hb.2.2.1, fun hv => (hb.2.2.2.1 hv).1⟩,
    by decide, by decide⟩

/-- C4 (as stated it fails). The path `hello` is non-empty, ends neither in `/`
nor in `/{$}` and is not a remainder pattern. On a fresh router each of
`Handle("GET", "hello", h)`, `Handle("GET", "hello/", h)` and
`Handle("GET", "hello/{$}", h)` sends the one registration `GET hello`, which
the engine refuses, and panics: the sequence sent is not the two registrations
`GET hello`, `GET hello/{$}`. -/
theorem Handle_trailing_slash_refused_sends_one :
    str "GET" ≠ [] ∧ str "hello" ≠ [] ∧ ¬ str "/" <:+ str "hello" ∧
    ¬ str "/{$}" <:+ str "hello" ∧ isRemainderPattern (str "hello") = some false ∧
    (Router.sent demoRouter
        (demoRouter.Handle (str "GET") (str "hello") (logHandler "h")).2).map Prod.fst =
      [str "GET" ++ str " " ++ str "hello"] ∧
    (Router.sent demoRouter
        (demoRouter.Handle (str "GET") (str "hello" ++ str "/") (logHandler "h")).2).map
      Prod.fst = [str "GET" ++ str " " ++ str "hello"] ∧
    (Router.sent demoRouter
        (demoRouter.Handle (str "GET") (str "hello" ++ str "/{$}") (logHandler "h")).2).map
      Prod.fst = [str "GET" ++ str " " ++ str "hello"] ∧
    (demoRouter.Handle (str "GET") (str "hello") (logHandler "h")).1 =
      Outcome.panicked "http: invalid pattern" := by
  exact ⟨by decide, by decide, by decide, by decide, by decide, by decide, by decide,
    by decide, by decide⟩

/-- C4, amended. Trailing-slash equivalence. For a non-empty method, a
handler, and a non-empty path `p` that ends neither in `/` nor in `/{$}` and
is not a remainder pattern, the calls `Handle(m, p, h)`, `Handle(m, p + "/", h)`
and `Handle(m, p + "/{$}", h)` on the same unsealed router (a fresh one in
particular) have the same outcome and leave the same router, so they send the
same registrations: `m + " " + p` and then, if the engine accepts it,
`m + " " + p + "/{$}"`, both with `h`; if the engine refuses the first, it is
the only one sent. -/
theorem Handle_trailing_slash_equivalence {σ : Type} (r : Router σ)
    (method p : GoString) (h : http.Handler σ)
    (hr : r.initted = false) (hm : method ≠ []) (hp : p ≠ [])
    (hslash : ¬ str "/" <:+ p) (hstrict : ¬ str "/{$}" <:+ p)
    (hrem : isRemainderPattern p = some false) :
    r.Handle method (p ++ str "/") h = r.Handle method p h ∧
    r.Handle method (p ++ str "/{$}") h = r.Handle method p h ∧
    (r.m.refuses r.m.patterns (method ++ str " " ++ p) = none →
      Router.sent r (r.Handle method p h).2 =
        [(method ++ str " " ++ p, h), (method ++ str " " ++ p ++ str "/{$}", h)]) ∧
    (∀ msg, r.m.refuses r.m.patterns (method ++ str " " ++ p) = some msg →
      Router.sent r (r.Handle method p h).2 = [(method ++ str " " ++ p, h)] ∧
      (r.Handle method p h).1 = Outcome.panicked msg) := by
  have hroot : p ≠ str "/" := fun e => hslash (by rw [e])
  have e1 : strings.TrimSuffix (strings.TrimSuffix p (str "/")) (str "/{$}") = p := by
    rw [strings.TrimSuffix_of_not p _ hslash, strings.TrimSuffix_of_not p _ hstrict]
  have e2 : strings.TrimSuffix (strings.TrimSuffix (p ++ str "/") (str "/")) (str "/{$}") = p := by
    rw [strings.TrimSuffix_append, strings.TrimSuffix_of_not p _ hstrict]
  have hns : ¬ str "/" <:+ p ++ str "/{$}" := by
    rw [str_slash, str_strict]
    rintro ⟨t, ht⟩
    have := congrArg List.getLast? ht
    simp at this
  have e3 : strings.TrimSuffix (strings.TrimSuffix (p ++ str "/{$}") (str "/")) (str "/{$}")
      = p := by
    rw [strings.TrimSuffix_of_not _ _ hns, strings.TrimSuffix_append]
  have hp1 : p ++ str "/" ≠ [] := by simp [hp]
  have hp2 : p ++ str "/{$}" ≠ [] := by simp [hp]
  have hr1 : p ++ str "/" ≠ str "/" := by
    intro e
    have := congrArg List.length e
    rw [str_slash] at this
    simp at this
    exact hp this
  have hr2 : p ++ str "/{$}" ≠ str "/" := by
    intro e
    have := congrArg List.length e
    rw [str_slash, str_strict] at this
    simp at this
  have k0 := Router.Handle_general r method p h hr hm hp hroot hrem
  have k1 := Router.Handle_general r method (p ++ str "/") h hr hm hp1 hr1
    (isRemainderPattern_append_slash p)
  have k2 := Router.Handle_general r method (p ++ str "/{$}") h hr hm hp2 hr2
    (isRemainderPattern_append_strict p)
  have s0 := Router.Handle_general_sent r method p h hr hm hp hroot hrem
  rw [e1] at k0 s0
  rw [e2] at k1
  rw [e3] at k2
  have same : ∀ q : GoString,
      ((∀ msg, r.m.refuses r.m.patterns (method ++ str " " ++ p) = some msg →
        r.Handle method q h =
          (Outcome.panicked msg,
            { r with m := { r.m with received := r.m.received ++
                [(method ++ str " " ++ p, h)] } })) ∧
      (r.m.refuses r.m.patterns (method ++ str " " ++ p) = none →
        r.Handle method q h =
          (((r.m.Handle (method ++ str " " ++ p) h).2.Handle
              (method ++ str " " ++ (p ++ str "/{$}")) h).1,
            { r with m := ((r.m.Handle (method ++ str " " ++ p) h).2.Handle
              (method ++ str " " ++ (p ++ str "/{$}")) h).2 }))) →
      r.Handle method q h = r.Handle method p h := by
    intro q kq
    cases hv : r.m.refuses r.m.patterns (method ++ str " " ++ p) with
    | some msg => rw [kq.1 msg hv, k0.1 msg hv]
    | none => rw [kq.2 hv, k0.2 hv]
  refine ⟨same _ k1, same _ k2, s0.2, ?_⟩
  intro msg hv
  refine ⟨s0.1 msg hv, ?_⟩
  rw [k0.1 msg hv]

/-- Witness for C4 as amended: the path `/hello` with the method `GET` on a
fresh router, whose engine accepts `GET /hello`. -/
theorem Handle_trailing_slash_equivalence_witness :
    (demoRouter.initted = false ∧ str "GET" ≠ [] ∧ str "/hello" ≠ [] ∧
      ¬ str "/" <:+ str "/hello" ∧ ¬ str "/{$}" <:+ str "/hello" ∧
      isRemainderPattern (str "/hello") = some false ∧
      demoRouter.m.refuses demoRouter.m.patterns (str "GET" ++ str " " ++ str "/hello") = none) ∧
    demoRouter.Handle (str "GET") (str "/hello" ++ str "/") (logHandler "hello") =
      demoRouter.Handle (str "GET") (str "/hello") (logHandler "hello") ∧
    demoRouter.Handle (str "GET") (str "/hello" ++ str "/{$}") (logHandler "hello") =
      demoRouter.Handle (str "GET") (str "/hello") (logHandler "hello") ∧
    Router.sent demoRouter
        (demoRouter.Handle (str "GET") (str "/hello") (logHandler "hello")).2 =
      [(str "GET" ++ str " " ++ str "/hello", logHandler "hello"),
        (str "GET" ++ str " " ++ str "/hello" ++ str "/{$}", logHandler "hello")] :=
  have h := Handle_trailing_slash_equivalence demoRouter (str "GET") (str "/hello")
    (logHandler "hello") rfl (by decide) (by decide) (by decide) (by decide) (by decide)
  ⟨⟨rfl, by decide, by decide, by decide, by decide, by decide, by decide⟩,
    h.1, h.2.1, h.2.2.1 (by decide)⟩

/-- C5. For a non-empty method, a handler, and a path that is a remainder
pattern, `Handle` on an unsealed router makes exactly one call of the engine's
`Handle`, with the pattern `method + " " + path`, path verbatim, and the given
handler: that registration is the only one sent, the outcome is the engine's,
and nothing else in the router changes. When the engine accepts the pattern,
`Handle` returns and the engine holds exactly that one registration more. -/
theorem Handle_remainder_one_registration {σ : Type} (r : Router σ)
    (method path : GoString) (h : http.Handler σ)
    (hr : r.initted = false) (hm : method ≠ [])
    (hrem : isRemainderPattern path = some true) :
    Router.sent r (r.Handle method path h).2 = [(method ++ str " " ++ path, h)] ∧
    r.Handle method path h =
      ((r.m.Handle (method ++ str " " ++ path) h).1,
        { r with m := (r.m.Handle (method ++ str " " ++ path) h).2 }) ∧
    (r.m.refuses r.m.patterns (method ++ str " " ++ path) = none →
      r.Handle method path h =
        (Outcome.returned,
          { r with m := { r.m with
            patterns := r.m.patterns ++ [(method ++ str " " ++ path, h)]
            received := r.m.received ++ [(method ++ str " " ++ path, h)] } })) := by
  have hp : path ≠ [] := by
    rintro rfl
    revert hrem
    decide
  have hi : ¬ r.initted = true := by simp [hr]
  have key : r.Handle method path h =
      ((r.m.Handle (method ++ str " " ++ path) h).1,
        { r with m := (r.m.Handle (method ++ str " " ++ path) h).2 }) := by
    unfold Router.Handle
    rw [if_neg hi, if_neg hp, if_neg hm, hrem]
  refine ⟨?_, key, ?_⟩
  · rw [key]
    exact Router.sent_of_received _ _ _ (http.ServeMux.Handle_received _ _ _)
  · intro hv
    rw [key, http.ServeMux.Handle_accepted _ _ h hv]

/-- Witness for C5: `Handle("GET", "/foo/{bar...}", h)` on a fresh router, whose
engine accepts the pattern. -/
theorem Handle_remainder_one_registration_witness :
    (demoRouter.initted = false ∧ str "GET" ≠ [] ∧
      isRemainderPattern (str "/foo/{bar...}") = some true ∧
      demoRouter.m.refuses demoRouter.m.patterns
        (str "GET" ++ str " " ++ str "/foo/{bar...}") = none) ∧
    Router.sent demoRouter
        (demoRouter.Handle (str "GET") (str "/foo/{bar...}") (logHandler "foo")).2 =
      [(str "GET" ++ str " " ++ str "/foo/{bar...}", logHandler "foo")] ∧
    demoRouter.Handle (str "GET") (str "/foo/{bar...}") (logHandler "foo") =
      (Outcome.returned,
        { demoRouter with m := { demoRouter.m with
          patterns := demoRouter.m.patterns ++
            [(str "GET" ++ str " " ++ str "/foo/{bar...}", logHandler "foo")]
          received := demoRouter.m.received ++
            [(str "GET" ++ str " " ++ str "/foo/{bar...}", logHandler "foo")] } }) :=
  have h := Handle_remainder_one_registration demoRouter (str "GET") (str "/foo/{bar...}")
    (logHandler "foo") rfl (by decide) (by decide)
  ⟨⟨rfl, by decide, by decide, by decide⟩, h.1, h.2.2 (by decide)⟩

/-- C6. For a non-empty method and a handler, `Handle(method, "/", h)` on an
unsealed router makes exactly one call of the engine's `Handle`, with the
pattern `method + " /{$}"` and the given handler: that registration is the
only one sent and the outcome is the engine's. When the engine accepts the
pattern, `Handle` returns and the engine holds exactly that one registration
more. The pattern is not the catch-all `method + " /"`. -/
theorem Handle_root_one_registration {σ : Type} (r : Router σ)
    (method : GoString) (h : http.Handler σ)
    (hr : r.initted = false) (hm : method ≠ []) :
    Router.sent r (r.Handle method (str "/") h).2 = [(method ++ str " /{$}", h)] ∧
    r.Handle method (str "/") h =
      ((r.m.Handle (method ++ str " /{$}") h).1,
        { r with m := (r.m.Handle (method ++ str " /{$}") h).2 }) ∧
    (r.m.refuses r.m.patterns (method ++ str " /{$}") = none →
      r.Handle method (str "/") h =
        (Outcome.returned,
          { r with m := { r.m with
            patterns := r.m.patterns ++ [(method ++ str " /{$}", h)]
            received := r.m.received ++ [(method ++ str " /{$}", h)] } })) ∧
    method ++ str " /{$}" ≠ method ++ str " /" := by
  have hp : str "/" ≠ [] := by decide
  have hrem : isRemainderPattern (str "/") = some false := by decide
  have hi : ¬ r.initted = true := by simp [hr]
  have key : r.Handle method (str "/") h =
      ((r.m.Handle (method ++ str " /{$}") h).1,
        { r with m := (r.m.Handle (method ++ str " /{$}") h).2 }) := by
    unfold Router.Handle
    rw [if_neg hi, if_neg hp, if_neg hm, hrem]
    dsimp only
    rw [if_pos rfl]
  refine ⟨?_, key, ?_, ?_⟩
  · rw [key]
    exact Router.sent_of_received _ _ _ (http.ServeMux.Handle_received _ _ _)
  · intro hv
    rw [key, http.ServeMux.Handle_accepted _ _ h hv]
  · intro e
    exact absurd (List.append_cancel_left e) (by decide)

/-- Witness for C6: `Handle("GET", "/", h)` on a fresh router, whose engine
accepts `GET /{$}`. -/
theorem Handle_root_one_registration_witness :
    (demoRouter.initted = false ∧ str "GET" ≠ [] ∧
      demoRouter.m.refuses demoRouter.m.patterns (str "GET" ++ str " /{$}") = none) ∧
    Router.sent demoRouter (demoRouter.Handle (str "GET") (str "/") (logHandler "home")).2 =
      [(str "GET" ++ str " /{$}", logHandler "home")] ∧
    demoRouter.Handle (str "GET") (str "/") (logHandler "home") =
      (Outcome.returned,
        { demoRouter with m := { demoRouter.m with
          patterns := demoRouter.m.patterns ++ [(str "GET" ++ str " /{$}", logHandler "home")]
          received := demoRouter.m.received ++
            [(str "GET" ++ str " /{$}", logHandler "home")] } }) ∧
    str "GET" ++ str " /{$}" ≠ str "GET" ++ str " /" :=
  have h := Handle_root_one_registration demoRouter (str "GET") (logHandler "home") rfl
    (by decide)
  ⟨⟨rfl, by decide, by decide⟩, h.1, h.2.2.1 (by decide), h.2.2.2⟩

/-- C7. `isRemainderPattern` never fails, and it returns `true` exactly when
the last segment of the path has at least 6 bytes, begins with `{` (byte 123)
and ends with `...}`. The last segment is the last piece of the path split on
`/` (byte 47): the part of the path after its last `/`, or the whole path when
there is none. The listed paths give the listed results. -/
theorem isRemainderPattern_spec :
    (∀ path : GoString, ∃ pre seg : GoString,
      path = pre ++ seg ∧ (47 : UInt8) ∉ seg ∧ (pre = [] ∨ [(47 : UInt8)] <:+ pre) ∧
      (strings.Split path 47).getLast? = some seg ∧
      (isRemainderPattern path = some true ∨ isRemainderPattern path = some false) ∧
      (isRemainderPattern path = some true ↔
        6 ≤ seg.length ∧ [(123 : UInt8)] <+: seg ∧ str "...\x7d" <:+ seg)) ∧
    isRemainderPattern (str "/{x...}") = some true ∧
    isRemainderPattern (str "/{hello...}") = some true ∧
    isRemainderPattern (str "/one/{two...}") = some true ∧
    isRemainderPattern (str "/{x}") = some false ∧
    isRemainderPattern (str "") = some false ∧
    isRemainderPattern (str "/") = some false ∧
    isRemainderPattern (str "/a/{...}") = some false ∧
    isRemainderPattern (str "/a/...\x7d") = some false ∧
    isRemainderPattern (str "/one/{two}") = some false := by
  refine ⟨?_, by decide, by decide, by decide, by decide, by decide, by decide, by decide,
    by decide, by decide⟩
  exact isRemainderPattern_total

/-- C8. `chain(h, m1, ..., mn)` is `m1(m2(...(mn(h))...))`: the fold of the
middleware list from the right over `h`, so the first declared middleware is
outermost; it is `h` for the empty list. With middlewares that record their
name and then call their inner handler, around a terminal handler that records
its name, a request appends the names in declared order and then the
handler's. -/
theorem chain_first_declared_outermost :
    (∀ (σ : Type) (h : http.Handler σ) (mws : List (Middleware σ)),
      (chain h mws).1 = mws.foldr (fun mw inner => mw inner) h) ∧
    (∀ (σ : Type) (h : http.Handler σ), (chain h []).1 = h) ∧
    (∀ (σ : Type) (h : http.Handler σ) (m1 m2 m3 : Middleware σ),
      (chain h [m1, m2, m3]).1 = m1 (m2 (m3 h))) ∧
    (∀ (names : List String) (hn : String) (req : http.Request) (w : List String),
      (chain (logHandler hn) (names.map logMiddleware)).1 req w = w ++ names ++ [hn]) := by
  have key : ∀ (σ : Type) (h : http.Handler σ) (mws : List (Middleware σ)),
      (chain h mws).1 = mws.foldr (fun mw inner => mw inner) h := by
    intro σ h mws
    simp [chain, List.foldl_reverse]
  refine ⟨key, fun σ h => rfl, fun σ h m1 m2 m3 => rfl, ?_⟩
  intro names hn req w
  rw [key]
  induction names generalizing w with
  | nil => simp [logHandler]
  | cons n ns ih =>
    simp only [List.map_cons, List.foldr_cons]
    show (List.foldr (fun mw inner => mw inner) (logHandler hn) (ns.map logMiddleware)) req
      (w ++ [n]) = _
    rw [ih]
    simp

/-- C9. On an unsealed router `Use(xs)` returns and makes the stored
middleware sequence the old one followed by `xs`, changing nothing else; so
`Use(xs)` followed by `Use(ys)` gives the same result as `Use(xs ++ ys)`. -/
theorem Use_appends_in_order {σ : Type} (r : Router σ) (xs ys : List (Middleware σ))
    (hr : r.initted = false) :
    r.Use xs = (Outcome.returned, { r with mws := r.mws ++ xs }) ∧
    (r.Use xs).2.m = r.m ∧
    (r.Use xs).2.notFound = r.notFound ∧
    (r.Use xs).2.initted = r.initted ∧
    (r.Use xs).2.once = r.once ∧
    (r.Use xs).2.handler = r.handler ∧
    (r.Use xs).2.Use ys = r.Use (xs ++ ys) := by
  simp [Router.Use, hr]

/-- Witness for C9: two `Use` calls on a fresh router, as in `TestMiddleware`. -/
theorem Use_appends_in_order_witness :
    demoRouter.initted = false ∧
    demoRouter.Use [logMiddleware "one", logMiddleware "two"] =
      (Outcome.returned,
        { demoRouter with
          mws := demoRouter.mws ++ [logMiddleware "one", logMiddleware "two"] }) ∧
    (demoRouter.Use [logMiddleware "one", logMiddleware "two"]).2.Use [logMiddleware "three"] =
      demoRouter.Use ([logMiddleware "one", logMiddleware "two"] ++ [logMiddleware "three"]) :=
  have h := Use_appends_in_order demoRouter [logMiddleware "one", logMiddleware "two"]
    [logMiddleware "three"] rfl
  ⟨rfl, h.1, h.2.2.2.2.2.2⟩

/-- C10. On an unsealed router `Handle` panics when the path is empty and
when the method is empty, and the router it leaves is the router it was
given (no registration has reached the engine). With a non-empty method and a
non-empty path `Handle` does not fail of its own: it returns, or it panics
with a message that is the engine's refusal of a pattern; so it returns
whenever the engine refuses nothing. -/
theorem Handle_empty_arguments_panic {σ : Type} (r : Router σ)
    (method path : GoString) (h : http.Handler σ) (hr : r.initted = false) :
    (path = [] →
      r.Handle method path h = (Outcome.panicked "path cannot be empty", r)) ∧
    (path ≠ [] → method = [] →
      r.Handle method path h = (Outcome.panicked "method cannot be empty", r)) ∧
    (path ≠ [] → method ≠ [] →
      ((r.Handle method path h).1 = Outcome.returned ∨
        ∃ (msg : String) (held : List (GoString × http.Handler σ)) (pattern : GoString),
          r.m.refuses held pattern = some msg ∧
          (r.Handle method path h).1 = Outcome.panicked msg) ∧
      ((∀ (held : List (GoString × http.Handler σ)) (pattern : GoString),
          r.m.refuses held pattern = none) →
        (r.Handle method path h).1 = Outcome.returned)) := by
  refine ⟨?_, ?_, ?_⟩
  · intro hp
    simp [Router.Handle, hr, hp]
  · intro hp hm
    simp [Router.Handle, hr, hp, hm]
  · intro hp hm
    have hi : ¬ r.initted = true := by simp [hr]
    have engine : ∀ (mux : http.ServeMux σ) (pat : GoString), mux.refuses = r.m.refuses →
        ((mux.Handle pat h).1 = Outcome.returned ∨
          ∃ (msg : String) (held : List (GoString × http.Handler σ)) (pattern : GoString),
            r.m.refuses held pattern = some msg ∧
            (mux.Handle pat h).1 = Outcome.panicked msg) := by
      intro mux pat hmux
      rcases http.ServeMux.Handle_outcome mux pat h with ⟨_, ho⟩ | ⟨msg, hv, ho⟩
      · exact Or.inl ho
      · exact Or.inr ⟨msg, mux.patterns, pat, by rw [← hmux]; exact hv, ho⟩
    have main : (r.Handle method path h).1 = Outcome.returned ∨
        ∃ (msg : String) (held : List (GoString × http.Handler σ)) (pattern : GoString),
          r.m.refuses held pattern = some msg ∧
          (r.Handle method path h).1 = Outcome.panicked msg := by
      obtain ⟨_, _, _, _, _, _, hb, _⟩ := isRemainderPattern_total path
      rcases hb with hb | hb
      · have key : (r.Handle method path h).1 =
            (r.m.Handle (method ++ str " " ++ path) h).1 := by
          unfold Router.Handle
          rw [if_neg hi, if_neg hp, if_neg hm, hb]
        rw [key]
        exact engine r.m _ rfl
      · by_cases hroot : path = str "/"
        · have key : (r.Handle method path h).1 =
              (r.m.Handle (method ++ str " /{$}") h).1 := by
            unfold Router.Handle
            rw [if_neg hi, if_neg hp, if_neg hm, hb]
            dsimp only
            rw [if_pos hroot]
          rw [key]
          exact engine r.m _ rfl
        · obtain ⟨g1, g2⟩ := Router.Handle_general r method path h hr hm hp hroot hb
          cases hv : r.m.refuses r.m.patterns (method ++ str " " ++
              strings.TrimSuffix (strings.TrimSuffix path (str "/")) (str "/{$}")) with
          | some msg =>
            rw [g1 msg hv]
            exact Or.inr ⟨msg, _, _, hv, rfl⟩
          | none =>
            rw [g2 hv]
            dsimp only
            exact engine _ _ (http.ServeMux.Handle_refuses _ _ _)
    refine ⟨main, ?_⟩
    intro hnone
    rcases main with ho | ⟨msg, held, pattern, hv, _⟩
    · exact ho
    · rw [hnone held pattern] at hv
      exact absurd hv (by simp)

/-- Witness for C10 on a fresh router: an empty path, an empty method, and the
pair `GET`, `/hello`, for which `Handle` returns. -/
theorem Handle_empty_arguments_panic_witness :
    demoRouter.initted = false ∧
    demoRouter.Handle (str "GET") [] (logHandler "h") =
      (Outcome.panicked "path cannot be empty", demoRouter) ∧
    demoRouter.Handle [] (str "/hello") (logHandler "h") =
      (Outcome.panicked "method cannot be empty", demoRouter) ∧
    ((demoRouter.Handle (str "GET") (str "/hello") (logHandler "h")).1 = Outcome.returned ∨
      ∃ (msg : String) (held : List (GoString × http.Handler (List String)))
        (pattern : GoString),
        demoRouter.m.refuses held pattern = some msg ∧
        (demoRouter.Handle (str "GET") (str "/hello") (logHandler "h")).1 =
          Outcome.panicked msg) ∧
    (demoRouter.Handle (str "GET") (str "/hello") (logHandler "h")).1 = Outcome.returned :=
  ⟨rfl,
    (Handle_empty_arguments_panic demoRouter (str "GET") [] (logHandler "h") rfl).1 rfl,
    (Handle_empty_arguments_panic demoRouter [] (str "/hello") (logHandler "h") rfl).2.1
      (by decide) rfl,
    ((Handle_empty_arguments_panic demoRouter (str "GET") (str "/hello") (logHandler "h")
      rfl).2.2 (by decide) (by decide)).1,
    by decide⟩

/-! ## Facts about sequences of calls -/

/-- Once `initted` is set, no call clears it and no call replaces the
pipeline. -/
theorem Router.apply_sealed {σ : Type} (r : Router σ) (op : Op σ) (hi : r.initted = true) :
    (r.apply op).initted = true ∧ (r.apply op).handler = r.handler := by
  cases op with
  | handle method path handler =>
    obtain ⟨_, h2, h3, _, _⟩ := Router.Handle_fields r method path handler
    exact ⟨h2.trans hi, h3⟩
  | use mws => simp [Router.apply, Router.Use, hi]
  | mount p h => simp [Router.apply, Router.Mount, hi]
  | setNotFound hf => simp [Router.apply, Router.SetNotFoundHandler, hi]
  | serve req w =>
    simp only [Router.apply]
    rw [Router.ServeHTTP_router]
    unfold Router.onceDo Router.init
    split_ifs <;> simp [hi]

theorem Router.applyAll_sealed {σ : Type} (r : Router σ) (ops : List (Op σ))
    (hi : r.initted = true) :
    (r.applyAll ops).initted = true ∧ (r.applyAll ops).handler = r.handler := by
  induction ops generalizing r with
  | nil => exact ⟨hi, rfl⟩
  | cons op ops ih =>
    obtain ⟨h1, h2⟩ := Router.apply_sealed r op hi
    obtain ⟨k1, k2⟩ := ih (r.apply op) h1
    exact ⟨k1, k2.trans h2⟩

/-- A reachable router that has served a request is sealed. -/
theorem Router.Reachable.served_initted {σ : Type} {r : Router σ} (hr : r.Reachable)
    (req : http.Request) (w : σ) : (r.ServeHTTP req w).2.1.initted = true := by
  obtain ⟨h1, _⟩ := hr.inv
  rw [Router.ServeHTTP_router]
  unfold Router.onceDo Router.init
  by_cases ho : r.once = true
  · simp [ho, ← h1]
  · have hi : r.initted = false := by
      rw [← h1]
      simpa using ho
    simp [ho, hi]

/-- The first request on a reachable router builds the pipeline with `chain`
from the middleware declared so far. -/
theorem Router.Reachable.first_serve_handler {σ : Type} {r : Router σ} (hr : r.Reachable)
    (hi : r.initted = false) (req : http.Request) (w : σ) :
    (r.ServeHTTP req w).2.1.handler = some (fun mux => (chain mux.ServeHTTP r.mws).1) := by
  obtain ⟨h1, _⟩ := hr.inv
  have ho : r.once = false := h1.trans hi
  rw [Router.ServeHTTP_router]
  simp [Router.onceDo, Router.init, ho, hi]

theorem servedRouter_reachable : servedRouter.Reachable :=
  Router.Reachable.serve _ _ notFoundRouter_reachable

/-! ## The claims, continued -/

/-- C11. Once a `ServeHTTP` call on a reachable router has completed, and
after any further calls, the router is sealed: `Handle`, each of the nine
method shorthands and `Use` panic, for every argument, and the router they
leave is the router they were given, so no registration reaches the engine and
the stored middleware and the pipeline stay as they are. -/
theorem sealed_Handle_and_Use_panic {σ : Type} (r : Router σ) (hr : r.Reachable)
    (req : http.Request) (w : σ) (ops : List (Op σ)) (s : Router σ)
    (hs : s = ((r.ServeHTTP req w).2.1).applyAll ops) :
    s.initted = true ∧
    (∀ (method path : GoString) (h : http.Handler σ),
      s.Handle method path h = (Outcome.panicked "already initialized", s)) ∧
    (∀ (path : GoString) (hf : http.HandlerFunc σ),
      s.Get path hf = (Outcome.panicked "already initialized", s) ∧
      s.Head path hf = (Outcome.panicked "already initialized", s) ∧
      s.Post path hf = (Outcome.panicked "already initialized", s) ∧
      s.Put path hf = (Outcome.panicked "already initialized", s) ∧
      s.Patch path hf = (Outcome.panicked "already initialized", s) ∧
      s.Delete path hf = (Outcome.panicked "already initialized", s) ∧
      s.Connect path hf = (Outcome.panicked "already initialized", s) ∧
      s.Options path hf = (Outcome.panicked "already initialized", s) ∧
      s.Trace path hf = (Outcome.panicked "already initialized", s)) ∧
    (∀ mws : List (Middleware σ),
      s.Use mws = (Outcome.panicked "already initialized", s)) := by
  have hi : s.initted = true := by
    rw [hs]
    exact (Router.applyAll_sealed _ ops (hr.served_initted req w)).1
  have hH : ∀ (method path : GoString) (h : http.Handler σ),
      s.Handle method path h = (Outcome.panicked "already initialized", s) := by
    intro method path h
    simp [Router.Handle, hi]
  refine ⟨hi, hH, ?_, ?_⟩
  · intro path hf
    exact ⟨hH _ path hf, hH _ path hf, hH _ path hf, hH _ path hf, hH _ path hf,
      hH _ path hf, hH _ path hf, hH _ path hf, hH _ path hf⟩
  · intro mws
    simp [Router.Use, hi]

/-- Witness for C11: the router of `TestNotFoundWithMiddleware` after it has
served `POST /another`, then a `Mount` and a second request. -/
theorem sealed_Handle_and_Use_panic_witness :
    notFoundRouter.Reachable ∧
    (servedRouter.applyAll
        [Op.mount (str "/prefix") (logHandler "sub"), Op.serve homeRequest []]).Handle
      (str "GET") (str "/late") (logHandler "late") =
      (Outcome.panicked "already initialized",
        servedRouter.applyAll
          [Op.mount (str "/prefix") (logHandler "sub"), Op.serve homeRequest []]) ∧
    (servedRouter.applyAll
        [Op.mount (str "/prefix") (logHandler "sub"), Op.serve homeRequest []]).Post
      (str "/late") (logHandler "late") =
      (Outcome.panicked "already initialized",
        servedRouter.applyAll
          [Op.mount (str "/prefix") (logHandler "sub"), Op.serve homeRequest []]) ∧
    (servedRouter.applyAll
        [Op.mount (str "/prefix") (logHandler "sub"), Op.serve homeRequest []]).Use
      [logMiddleware "late"] =
      (Outcome.panicked "already initialized",
        servedRouter.applyAll
          [Op.mount (str "/prefix") (logHandler "sub"), Op.serve homeRequest []]) :=
  have h := sealed_Handle_and_Use_panic notFoundRouter notFoundRouter_reachable anotherRequest
    [] [Op.mount (str "/prefix") (logHandler "sub"), Op.serve homeRequest []] _ rfl
  ⟨notFoundRouter_reachable, h.2.1 _ _ _, (h.2.2.1 _ _).2.2.1, h.2.2.2 _⟩

/-- C12 (the code departs from the claim). On the sealed router that
`TestNotFoundWithMiddleware` leaves, `Mount` and `SetNotFoundHandler` return
instead of panicking: `Mount("/prefix", h)` adds the registration `/prefix/`
to the engine's, `SetNotFoundHandler(nil)` removes the not-found handler, and
a not-found handler set after sealing is the one the next unmatched request
runs. -/
theorem sealed_Mount_and_SetNotFoundHandler_return :
    servedRouter.initted = true ∧
    servedRouter.m.patterns.map Prod.fst = [str "GET /{$}"] ∧
    (servedRouter.Mount (str "/prefix") (logHandler "mounted")).1 = Outcome.returned ∧
    (servedRouter.Mount (str "/prefix") (logHandler "mounted")).2.m.patterns.map Prod.fst =
      [str "GET /{$}", str "/prefix/"] ∧
    servedRouter.notFound.isSome = true ∧
    (servedRouter.SetNotFoundHandler none).1 = Outcome.returned ∧
    (servedRouter.SetNotFoundHandler none).2.notFound.isSome = false ∧
    (servedRouter.SetNotFoundHandler (some (logHandler "late"))).1 = Outcome.returned ∧
    ((servedRouter.SetNotFoundHandler (some (logHandler "late"))).2.ServeHTTP
      anotherRequest []).2.2 = ["late"] := by
  exact ⟨by decide, by decide, by decide, by decide, by decide, by decide, by decide,
    by decide, by decide⟩

/-- C13. For every router, prefix `p` and handler `h`, `Mount(p, h)` makes
exactly one call of the engine's `Handle`, with the pattern `q + "/"`, where
`q` is `p` with one trailing `/` removed if present, with nothing in front of
it, and the handler `h` itself: that registration is the only one sent, the
outcome is the engine's, and nothing else in the router changes. When the
engine accepts the pattern, `Mount` returns and the engine holds exactly that
one registration more. So for `p` not ending in `/`, `Mount(p, h)` and
`Mount(p + "/", h)` are the same call with the pattern `p + "/"`. -/
theorem Mount_one_registration {σ : Type} (r : Router σ) (p : GoString)
    (h : http.Handler σ) :
    (∃ q : GoString,
      (p = q ++ str "/" ∨ (¬ str "/" <:+ p ∧ q = p)) ∧
      Router.sent r (r.Mount p h).2 = [(q ++ str "/", h)] ∧
      r.Mount p h =
        ((r.m.Handle (q ++ str "/") h).1, { r with m := (r.m.Handle (q ++ str "/") h).2 }) ∧
      (r.m.refuses r.m.patterns (q ++ str "/") = none →
        r.Mount p h =
          (Outcome.returned,
            { r with m := { r.m with
              patterns := r.m.patterns ++ [(q ++ str "/", h)]
              received := r.m.received ++ [(q ++ str "/", h)] } }))) ∧
    (¬ str "/" <:+ p →
      Router.sent r (r.Mount p h).2 = [(p ++ str "/", h)] ∧
      r.Mount (p ++ str "/") h = r.Mount p h) := by
  constructor
  · refine ⟨strings.TrimSuffix p (str "/"), strings.TrimSuffix_cases p (str "/"), ?_, rfl, ?_⟩
    · exact Router.sent_of_received _ _ _ (http.ServeMux.Handle_received _ _ _)
    · intro hv
      unfold Router.Mount
      rw [http.ServeMux.Handle_accepted _ _ h hv]
  · intro hp
    constructor
    · unfold Router.Mount
      rw [strings.TrimSuffix_of_not p _ hp]
      exact Router.sent_of_received _ _ _ (http.ServeMux.Handle_received _ _ _)
    · unfold Router.Mount
      rw [strings.TrimSuffix_append, strings.TrimSuffix_of_not p _ hp]

/-- Witness for C13: `Mount("/prefix", h)` and `Mount("/prefix/", h)` on a fresh
router. -/
theorem Mount_one_registration_witness :
    ¬ str "/" <:+ str "/prefix" ∧
    Router.sent demoRouter (demoRouter.Mount (str "/prefix") (logHandler "sub")).2 =
      [(str "/prefix" ++ str "/", logHandler "sub")] ∧
    demoRouter.Mount (str "/prefix" ++ str "/") (logHandler "sub") =
      demoRouter.Mount (str "/prefix") (logHandler "sub") ∧
    (demoRouter.Mount (str "/prefix") (logHandler "sub")).1 = Outcome.returned :=
  have h := (Mount_one_registration demoRouter (str "/prefix") (logHandler "sub")).2
    (by decide)
  ⟨by decide, h.1, h.2, by decide⟩

/-- C14 (as stated it fails). A sub-router with a `GET` handler for `/hello`
is mounted with `Mount("/prefix", sub)`. The parent's engine hands
`GET /prefix/hello` to the sub-router with its path unchanged, the sub-router
has no route for `/prefix/hello`, and its handler for `/hello` does not run:
the engine's "no route" handler does. -/
theorem Mount_keeps_request_path :
    (parentRouter (logHandler "404") (str "/hello") (logHandler "hello")).m.patterns.map
        Prod.fst = [str "/prefix/"] ∧
    ((parentRouter (logHandler "404") (str "/hello") (logHandler "hello")).Handler
        (getRequest (str "/prefix/hello"))).2 = str "/prefix/" ∧
    ((parentRouter (logHandler "404") (str "/hello") (logHandler "hello")).ServeHTTP
        (getRequest (str "/prefix/hello")) []).2.2 = ["404"] ∧
    ¬ "hello" ∈ ((parentRouter (logHandler "404") (str "/hello") (logHandler "hello")).ServeHTTP
        (getRequest (str "/prefix/hello")) []).2.2 := by
  exact ⟨by decide, by decide, by decide, by decide⟩

/-- C14, amended. A sub-router with a `GET` handler `h` registered for the full
path `/prefix/hello` is mounted with `Mount("/prefix", sub)` on a fresh parent
router. For every world, `GET /prefix/hello` on the parent returns and leaves
the world `h` produces, while `GET /hello` and `GET /prefix/` return and leave
the world the engine's "no route" handler produces, whatever `h` is. -/
theorem Mount_reaches_full_path {σ : Type} (noRoute h : http.Handler σ) (w : σ) :
    (parentRouter noRoute (str "/prefix/hello") h).ServeHTTP (getRequest (str "/prefix/hello")) w =
      (Outcome.returned,
        (parentRouter noRoute (str "/prefix/hello") h).onceDo.2,
        h (getRequest (str "/prefix/hello")) w) ∧
    (parentRouter noRoute (str "/prefix/hello") h).ServeHTTP (getRequest (str "/hello")) w =
      (Outcome.returned,
        (parentRouter noRoute (str "/prefix/hello") h).onceDo.2,
        noRoute (getRequest (str "/hello")) w) ∧
    (parentRouter noRoute (str "/prefix/hello") h).ServeHTTP (getRequest (str "/prefix/")) w =
      (Outcome.returned,
        (parentRouter noRoute (str "/prefix/hello") h).onceDo.2,
        noRoute (getRequest (str "/prefix/")) w) := by
  refine ⟨?_, ?_, ?_⟩ <;> rfl

/-- C18. A router returned by `NewRouter` is unsealed and has no pipeline.
The first `ServeHTTP` on a reachable, unsealed router sets `initted` and sets
the pipeline to `chain` of the engine and the middleware declared so far.
After that, whatever calls follow (`ServeHTTP`, `Handle`, `Use`, `Mount`,
`SetNotFoundHandler`, returning or panicking), `initted` stays set and the
pipeline stays the one the first request built. -/
theorem sealing_once_and_for_all {σ : Type} :
    (∀ (lookup : List (GoString × http.Handler σ) → http.Request → http.Handler σ × GoString)
        (dispatch : List (GoString × http.Handler σ) → http.Request → σ → σ)
        (refuses : List (GoString × http.Handler σ) → GoString → Option String),
      (NewRouter lookup dispatch refuses).initted = false ∧
      (NewRouter lookup dispatch refuses).once = false ∧
      (NewRouter lookup dispatch refuses).handler = none) ∧
    (∀ (r : Router σ), r.Reachable → r.initted = false →
      ∀ (req : http.Request) (w : σ),
        (r.ServeHTTP req w).1 = Outcome.returned ∧
        (r.ServeHTTP req w).2.1.initted = true ∧
        (r.ServeHTTP req w).2.1.handler =
          some (fun mux => (chain mux.ServeHTTP r.mws).1) ∧
        ∀ ops : List (Op σ),
          ((r.ServeHTTP req w).2.1.applyAll ops).initted = true ∧
          ((r.ServeHTTP req w).2.1.applyAll ops).handler =
            some (fun mux => (chain mux.ServeHTTP r.mws).1)) := by
  refine ⟨fun lookup dispatch refuses => ⟨rfl, rfl, rfl⟩, ?_⟩
  intro r hr hi req w
  have h1 := hr.served_initted req w
  have h2 := hr.first_serve_handler hi req w
  refine ⟨?_, h1, h2, ?_⟩
  · obtain ⟨k1, k2, k3, p, hp, _⟩ := hr.onceDo_returns
    have hsplit : r.onceDo = (Outcome.returned, r.onceDo.2) := by rw [← k1]
    unfold Router.ServeHTTP
    rw [hsplit]
    simp only [hp]
    split
    · split_ifs <;> rfl
    · rfl
  · intro ops
    obtain ⟨a1, a2⟩ := Router.applyAll_sealed _ ops h1
    exact ⟨a1, a2.trans h2⟩

/-- Witness for C18: the router of `TestNotFoundWithMiddleware`, its first
request, and then a `Handle`, a `Use`, a `Mount`, a `SetNotFoundHandler` and a
second request. -/
theorem sealing_once_and_for_all_witness :
    notFoundRouter.Reachable ∧ notFoundRouter.initted = false ∧
    servedRouter.initted = true ∧
    servedRouter.handler = some (fun mux => (chain mux.ServeHTTP notFoundRouter.mws).1) ∧
    (servedRouter.applyAll
      [Op.handle (str "GET") (str "/late") (logHandler "late"), Op.use [logMiddleware "B"],
        Op.mount (str "/prefix") (logHandler "sub"), Op.setNotFound none,
        Op.serve homeRequest []]).initted = true ∧
    (servedRouter.applyAll
      [Op.handle (str "GET") (str "/late") (logHandler "late"), Op.use [logMiddleware "B"],
        Op.mount (str "/prefix") (logHandler "sub"), Op.setNotFound none,
        Op.serve homeRequest []]).handler =
      some (fun mux => (chain mux.ServeHTTP notFoundRouter.mws).1) :=
  have h := (sealing_once_and_for_all.2 notFoundRouter notFoundRouter_reachable rfl
    anotherRequest [])
  ⟨notFoundRouter_reachable, rfl, h.2.1, h.2.2.1, (h.2.2.2 _).1, (h.2.2.2 _).2⟩

/-! ## The claims on the derived patterns -/

/-- C15 (as stated it fails). The path `//` is non-empty, is not `/` and is not
a remainder pattern, and the base `Handle` derives from it is `/`, which ends
in `/`. The path `/a/{$}/{$}` is such a path too, and its base is `/a/{$}`,
which ends in `/{$}`. -/
theorem Handle_base_may_keep_slash_or_marker :
    (str "//" ≠ [] ∧ str "//" ≠ str "/" ∧ isRemainderPattern (str "//") = some false ∧
      (Router.sent demoRouter
          (demoRouter.Handle (str "GET") (str "//") (logHandler "h")).2).map Prod.fst =
        [str "GET" ++ str " " ++ str "/", str "GET" ++ str " " ++ str "/" ++ str "/{$}"] ∧
      str "/" <:+ str "/") ∧
    (str "/a/{$}/{$}" ≠ [] ∧ str "/a/{$}/{$}" ≠ str "/" ∧
      isRemainderPattern (str "/a/{$}/{$}") = some false ∧
      (Router.sent demoRouter
          (demoRouter.Handle (str "GET") (str "/a/{$}/{$}") (logHandler "h")).2).map
          Prod.fst =
        [str "GET" ++ str " " ++ str "/a/{$}",
          str "GET" ++ str " " ++ str "/a/{$}" ++ str "/{$}"] ∧
      str "/{$}" <:+ str "/a/{$}") := by
  exact ⟨⟨by decide, by decide, by decide, by decide, by decide⟩,
    ⟨by decide, by decide, by decide, by decide, by decide⟩⟩

/-- C15, amended. For a non-empty path `p` that is not `/`, is not a remainder
pattern, and ends in none of `//`, `//{$}`, `//{$}/`, `/{$}/{$}` and
`/{$}/{$}/`, the base of the patterns that `Handle` sends on an unsealed
router, for a non-empty method, ends neither in `/` nor in `/{$}`. The base is
the one in the first registration sent, `method + " " + base`, which is
followed by `method + " " + base + "/{$}"` if the engine accepts it. -/
theorem Handle_base_is_bare {σ : Type} (r : Router σ) (method p : GoString)
    (h : http.Handler σ) (hr : r.initted = false) (hm : method ≠ []) (hp : p ≠ [])
    (hroot : p ≠ str "/") (hrem : isRemainderPattern p = some false)
    (h1 : ¬ str "//" <:+ p) (h2 : ¬ str "//{$}" <:+ p) (h3 : ¬ str "//{$}/" <:+ p)
    (h4 : ¬ str "/{$}/{$}" <:+ p) (h5 : ¬ str "/{$}/{$}/" <:+ p) :
    ∃ base : GoString,
      (∀ msg, r.m.refuses r.m.patterns (method ++ str " " ++ base) = some msg →
        Router.sent r (r.Handle method p h).2 = [(method ++ str " " ++ base, h)]) ∧
      (r.m.refuses r.m.patterns (method ++ str " " ++ base) = none →
        Router.sent r (r.Handle method p h).2 =
          [(method ++ str " " ++ base, h), (method ++ str " " ++ base ++ str "/{$}", h)]) ∧
      ¬ str "/" <:+ base ∧ ¬ str "/{$}" <:+ base := by
  obtain ⟨s1, s2⟩ := Router.Handle_general_sent r method p h hr hm hp hroot hrem
  refine ⟨_, s1, s2, ?_, ?_⟩
  all_goals
    have e1 : str "//" = str "/" ++ str "/" := by decide
    have e2 : str "//{$}" = str "/" ++ str "/{$}" := by decide
    have e3 : str "//{$}/" = str "/" ++ str "/{$}" ++ str "/" := by decide
    have e4 : str "/{$}/{$}" = str "/{$}" ++ str "/{$}" := by decide
    have e5 : str "/{$}/{$}/" = str "/{$}" ++ str "/{$}" ++ str "/" := by decide
    have c1 := strings.TrimSuffix_cases p (str "/")
    have c2 := strings.TrimSuffix_cases (strings.TrimSuffix p (str "/")) (str "/{$}")
    clear s1 s2
    generalize strings.TrimSuffix (strings.TrimSuffix p (str "/")) (str "/{$}") = base at c2 ⊢
    generalize strings.TrimSuffix p (str "/") = p1 at c1 c2
    rintro ⟨b, hb⟩
  · rcases c1 with k1 | ⟨k0, k1⟩
    · rcases c2 with k2 | ⟨_, k2⟩
      · subst_vars
        exact h3 ⟨b, by simp only [e3, List.append_assoc]⟩
      · subst_vars
        exact h1 ⟨b, by simp only [e1, List.append_assoc]⟩
    · rcases c2 with k2 | ⟨_, k2⟩
      · subst_vars
        exact h2 ⟨b, by simp only [e2, List.append_assoc]⟩
      · subst_vars
        exact k0 ⟨b, rfl⟩
  · rcases c1 with k1 | ⟨_, k1⟩
    · rcases c2 with k2 | ⟨k0, k2⟩
      · subst_vars
        exact h5 ⟨b, by simp only [e5, List.append_assoc]⟩
      · subst_vars
        exact k0 ⟨b, rfl⟩
    · rcases c2 with k2 | ⟨k0, k2⟩
      · subst_vars
        exact h4 ⟨b, by simp only [e4, List.append_assoc]⟩
      · subst_vars
        exact k0 ⟨b, rfl⟩

/-- Witness for C15 as amended: `Handle("GET", "/hello/{$}", h)` on a fresh
router derives the base `/hello`. -/
theorem Handle_base_is_bare_witness :
    (demoRouter.initted = false ∧ str "GET" ≠ [] ∧ str "/hello/{$}" ≠ [] ∧
      str "/hello/{$}" ≠ str "/" ∧ isRemainderPattern (str "/hello/{$}") = some false ∧
      ¬ str "//" <:+ str "/hello/{$}" ∧ ¬ str "//{$}" <:+ str "/hello/{$}" ∧
      ¬ str "//{$}/" <:+ str "/hello/{$}" ∧ ¬ str "/{$}/{$}" <:+ str "/hello/{$}" ∧
      ¬ str "/{$}/{$}/" <:+ str "/hello/{$}") ∧
    (∃ base : GoString,
      (∀ msg, demoRouter.m.refuses demoRouter.m.patterns (str "GET" ++ str " " ++ base) =
          some msg →
        Router.sent demoRouter
            (demoRouter.Handle (str "GET") (str "/hello/{$}") (logHandler "hello")).2 =
          [(str "GET" ++ str " " ++ base, logHandler "hello")]) ∧
      (demoRouter.m.refuses demoRouter.m.patterns (str "GET" ++ str " " ++ base) = none →
        Router.sent demoRouter
            (demoRouter.Handle (str "GET") (str "/hello/{$}") (logHandler "hello")).2 =
          [(str "GET" ++ str " " ++ base, logHandler "hello"),
            (str "GET" ++ str " " ++ base ++ str "/{$}", logHandler "hello")]) ∧
      ¬ str "/" <:+ base ∧ ¬ str "/{$}" <:+ base) ∧
    (Router.sent demoRouter
        (demoRouter.Handle (str "GET") (str "/hello/{$}") (logHandler "hello")).2).map
      Prod.fst = [str "GET /hello", str "GET /hello/{$}"] :=
  ⟨⟨rfl, by decide, by decide, by decide, by decide, by decide, by decide, by decide,
      by decide, by decide⟩,
    Handle_base_is_bare demoRouter (str "GET") (str "/hello/{$}") (logHandler "hello") rfl
      (by decide) (by decide) (by decide) (by decide) (by decide) (by decide) (by decide)
      (by decide) (by decide),
    by decide⟩

/-- C16 (as stated it fails). The path `/{x...}/` is non-empty and is not a
remainder pattern (its last segment is empty), so `Handle("GET", "/{x...}/", h)`
takes the general branch and sends `GET /{x...}` and `GET /{x...}/{$}`; the
second is `GET` + space + `/{x...}` + `/{$}`, and `/{x...}` is a remainder
pattern. -/
theorem Handle_marker_after_remainder :
    str "GET" ≠ [] ∧ str "/{x...}/" ≠ [] ∧
    isRemainderPattern (str "/{x...}/") = some false ∧
    (Router.sent demoRouter
        (demoRouter.Handle (str "GET") (str "/{x...}/") (logHandler "h")).2).map Prod.fst =
      [str "GET" ++ str " " ++ str "/{x...}",
        str "GET" ++ str " " ++ str "/{x...}" ++ str "/{$}"] ∧
    isRemainderPattern (str "/{x...}") = some true := by
  exact ⟨by decide, by decide, by decide, by decide, by decide⟩

/-- C16, amended. For a path that is not a remainder pattern followed by `/`,
`/{$}`, `/{$}/`, `/{$}/{$}` or `/{$}/{$}/`, no pattern that `Handle` sends to
the engine, accepted or refused, is `method + " " + q + "/{$}"` with `q` a
remainder pattern. This needs no condition on the method, and holds for the
empty path and the empty method too, where `Handle` sends nothing. -/
theorem Handle_no_marker_after_remainder {σ : Type} (r : Router σ) (method p : GoString)
    (h : http.Handler σ)
    (hnot : ∀ q : GoString, isRemainderPattern q = some true →
      p ≠ q ++ str "/" ∧ p ≠ q ++ str "/{$}" ∧ p ≠ q ++ str "/{$}/" ∧
      p ≠ q ++ str "/{$}/{$}" ∧ p ≠ q ++ str "/{$}/{$}/") :
    ∀ reg ∈ Router.sent r (r.Handle method p h).2, ∀ q : GoString,
      reg.1 = method ++ str " " ++ q ++ str "/{$}" → isRemainderPattern q ≠ some true := by
  have hroot : str " /{$}" = str " " ++ str "/{$}" := by decide
  have e3 : str "/{$}/" = str "/{$}" ++ str "/" := by decide
  have e4 : str "/{$}/{$}" = str "/{$}" ++ str "/{$}" := by decide
  have e5 : str "/{$}/{$}/" = str "/{$}" ++ str "/{$}" ++ str "/" := by decide
  have first : ∀ q : GoString,
      strings.TrimSuffix (strings.TrimSuffix p (str "/")) (str "/{$}") = q ++ str "/{$}" →
      isRemainderPattern q ≠ some true := by
    intro q hq hrq
    obtain ⟨_, _, _, n4, n5⟩ := hnot q hrq
    have c1 := strings.TrimSuffix_cases p (str "/")
    have c2 := strings.TrimSuffix_cases (strings.TrimSuffix p (str "/")) (str "/{$}")
    rw [hq] at c2
    generalize strings.TrimSuffix p (str "/") = p1 at c1 c2
    rcases c2 with k2 | ⟨k0, k2⟩
    · rcases c1 with k1 | ⟨_, k1⟩
      · exact n5 (by rw [k1, k2, e5]; simp only [List.append_assoc])
      · exact n4 (by rw [← k1, k2, e4]; simp only [List.append_assoc])
    · exact k0 ⟨q, k2⟩
  have second : isRemainderPattern p = some false →
      isRemainderPattern
        (strings.TrimSuffix (strings.TrimSuffix p (str "/")) (str "/{$}")) ≠ some true := by
    intro hrem hrq
    obtain ⟨n1, n2, n3, _, _⟩ := hnot _ hrq
    have c1 := strings.TrimSuffix_cases p (str "/")
    have c2 := strings.TrimSuffix_cases (strings.TrimSuffix p (str "/")) (str "/{$}")
    generalize strings.TrimSuffix (strings.TrimSuffix p (str "/")) (str "/{$}") = base
      at c2 n1 n2 n3 hrq
    generalize strings.TrimSuffix p (str "/") = p1 at c1 c2
    rcases c2 with k2 | ⟨_, k2⟩
    · rcases c1 with k1 | ⟨_, k1⟩
      · exact n3 (by rw [k1, k2, e3]; simp only [List.append_assoc])
      · exact n2 (by rw [← k1, k2])
    · rcases c1 with k1 | ⟨_, k1⟩
      · exact n1 (by rw [k1, k2])
      · rw [k2, k1, hrem] at hrq
        exact absurd hrq (by simp)
  intro reg hreg q hq
  rcases Router.Handle_sent r method p h with
    hs | ⟨hrem, hs⟩ | ⟨hslash, hs⟩ | ⟨_, hrem, hs | ⟨_, hs⟩⟩
  · rw [hs] at hreg
    simp at hreg
  · rw [hs] at hreg
    simp only [List.mem_singleton] at hreg
    subst hreg
    simp only [List.append_assoc] at hq
    have e := List.append_cancel_left (List.append_cancel_left hq)
    rw [e, isRemainderPattern_append_strict] at hrem
    exact absurd hrem (by simp)
  · rw [hs] at hreg
    simp only [List.mem_singleton] at hreg
    subst hreg
    rw [hroot] at hq
    simp only [List.append_assoc] at hq
    have e := List.append_cancel_left (List.append_cancel_left hq)
    have hnil : q = [] := by
      have e' : [] ++ str "/{$}" = q ++ str "/{$}" := by simpa using e
      exact (List.append_cancel_right e').symm
    subst hnil
    decide
  · rw [hs] at hreg
    simp only [List.mem_singleton] at hreg
    subst hreg
    simp only [List.append_assoc] at hq
    exact first q (List.append_cancel_left (List.append_cancel_left hq))
  · rw [hs] at hreg
    simp only [List.mem_cons, List.mem_singleton, List.not_mem_nil, or_false] at hreg
    rcases hreg with hreg | hreg
    · subst hreg
      simp only [List.append_assoc] at hq
      exact first q (List.append_cancel_left (List.append_cancel_left hq))
    · subst hreg
      simp only [List.append_assoc] at hq
      have e := List.append_cancel_right (List.append_cancel_left (List.append_cancel_left hq))
      rw [← e]
      exact second hrem

/-- Witness for C16 as amended: the path `/{x...}/foo`, in which a remainder
pattern is followed by `/foo`, none of the five excluded endings: whatever
`Handle` sends for it (`GET /{x...}/foo`, and `GET /{x...}/foo/{$}` if the
engine accepts the first), nothing sent is a remainder pattern followed by the
marker. -/
theorem Handle_no_marker_after_remainder_witness :
    (∀ q : GoString, isRemainderPattern q = some true →
      str "/{x...}/foo" ≠ q ++ str "/" ∧ str "/{x...}/foo" ≠ q ++ str "/{$}" ∧
      str "/{x...}/foo" ≠ q ++ str "/{$}/" ∧ str "/{x...}/foo" ≠ q ++ str "/{$}/{$}" ∧
      str "/{x...}/foo" ≠ q ++ str "/{$}/{$}/") ∧
    (∀ reg ∈ Router.sent demoRouter
        (demoRouter.Handle (str "GET") (str "/{x...}/foo") (logHandler "foo")).2,
      ∀ q : GoString,
        reg.1 = str "GET" ++ str " " ++ q ++ str "/{$}" → isRemainderPattern q ≠ some true) :=
  have hnot : ∀ q : GoString, isRemainderPattern q = some true →
      str "/{x...}/foo" ≠ q ++ str "/" ∧ str "/{x...}/foo" ≠ q ++ str "/{$}" ∧
      str "/{x...}/foo" ≠ q ++ str "/{$}/" ∧ str "/{x...}/foo" ≠ q ++ str "/{$}/{$}" ∧
      str "/{x...}/foo" ≠ q ++ str "/{$}/{$}/" := by
    intro q _
    have n1 : ¬ str "/" <:+ str "/{x...}/foo" := by decide
    have n2 : ¬ str "/{$}" <:+ str "/{x...}/foo" := by decide
    have n3 : ¬ str "/{$}/" <:+ str "/{x...}/foo" := by decide
    have n4 : ¬ str "/{$}/{$}" <:+ str "/{x...}/foo" := by decide
    have n5 : ¬ str "/{$}/{$}/" <:+ str "/{x...}/foo" := by decide
    exact ⟨fun e => n1 ⟨q, e.symm⟩, fun e => n2 ⟨q, e.symm⟩, fun e => n3 ⟨q, e.symm⟩,
      fun e => n4 ⟨q, e.symm⟩, fun e => n5 ⟨q, e.symm⟩⟩
  ⟨hnot,
    Handle_no_marker_after_remainder demoRouter (str "GET") (str "/{x...}/foo")
      (logHandler "foo") hnot⟩

/-- C17. Each of the nine method shorthands is `Handle` with its own verb: on
every router, for every path and handler func, the shorthand gives the same
outcome and the same router as `Handle` with that verb. And every registration
that `Handle(verb, path, hf)` sends to the engine, accepted or refused,
carries `hf` and a pattern that starts with `verb` and a space, so what a
shorthand registers carries its verb. -/
theorem shorthands_are_Handle {σ : Type} (r : Router σ) (path : GoString)
    (hf : http.HandlerFunc σ) :
    (r.Get path hf = r.Handle (str "GET") path hf ∧
      r.Head path hf = r.Handle (str "HEAD") path hf ∧
      r.Post path hf = r.Handle (str "POST") path hf ∧
      r.Put path hf = r.Handle (str "PUT") path hf ∧
      r.Patch path hf = r.Handle (str "PATCH") path hf ∧
      r.Delete path hf = r.Handle (str "DELETE") path hf ∧
      r.Connect path hf = r.Handle (str "CONNECT") path hf ∧
      r.Options path hf = r.Handle (str "OPTIONS") path hf ∧
      r.Trace path hf = r.Handle (str "TRACE") path hf) ∧
    (∀ verb : GoString, ∀ reg ∈ Router.sent r (r.Handle verb path hf).2,
      reg.2 = hf ∧ ∃ q : GoString, reg.1 = verb ++ str " " ++ q) := by
  refine ⟨⟨rfl, rfl, rfl, rfl, rfl, rfl, rfl, rfl, rfl⟩, ?_⟩
  intro verb reg hreg
  have hroot : str " /{$}" = str " " ++ str "/{$}" := by decide
  rcases Router.Handle_sent r verb path hf with
    hs | ⟨_, hs⟩ | ⟨_, hs⟩ | ⟨_, _, hs | ⟨_, hs⟩⟩
  · rw [hs] at hreg
    simp at hreg
  · rw [hs] at hreg
    simp only [List.mem_singleton] at hreg
    subst hreg
    exact ⟨rfl, path, rfl⟩
  · rw [hs] at hreg
    simp only [List.mem_singleton] at hreg
    subst hreg
    exact ⟨rfl, str "/{$}", by rw [hroot]; simp only [List.append_assoc]⟩
  · rw [hs] at hreg
    simp only [List.mem_singleton] at hreg
    subst hreg
    exact ⟨rfl, _, rfl⟩
  · rw [hs] at hreg
    simp only [List.mem_cons, List.mem_singleton, List.not_mem_nil, or_false] at hreg
    rcases hreg with hreg | hreg
    · subst hreg
      exact ⟨rfl, _, rfl⟩
    · subst hreg
      exact ⟨rfl,
        strings.TrimSuffix (strings.TrimSuffix path (str "/")) (str "/{$}") ++ str "/{$}",
        by simp only [List.append_assoc]⟩

/-- Witness for C17: `Post("/hello", h)` on a fresh router sends `POST /hello`
and `POST /hello/{$}`. -/
theorem shorthands_are_Handle_witness :
    demoRouter.Post (str "/hello") (logHandler "hello") =
      demoRouter.Handle (str "POST") (str "/hello") (logHandler "hello") ∧
    (Router.sent demoRouter
        (demoRouter.Post (str "/hello") (logHandler "hello")).2).map Prod.fst =
      [str "POST /hello", str "POST /hello/{$}"] ∧
    (∀ reg ∈ Router.sent demoRouter
        (demoRouter.Handle (str "POST") (str "/hello") (logHandler "hello")).2,
      reg.2 = logHandler "hello" ∧ ∃ q : GoString, reg.1 = str "POST" ++ str " " ++ q) :=
  have h := shorthands_are_Handle demoRouter (str "/hello") (logHandler "hello")
  ⟨h.1.2.2.1, by decide, h.2 (str "POST")⟩

/-- C19 (the code departs from the claim). For the method `GET` and the path
`/{$}`, which begins with `/`, `Handle` on a fresh router sends to the engine
the registration `GET` + space + the empty path: a pattern with an empty path
part. The engine refuses it, `Handle` panics, nothing is registered and
`GET /{$}` is never sent. The paths `/` and `/hello/{$}` do not have this
defect. -/
theorem Handle_strict_root_sends_empty_path :
    str "GET" ≠ [] ∧ str "/" <+: str "/{$}" ∧
    (Router.sent demoRouter
        (demoRouter.Handle (str "GET") (str "/{$}") (logHandler "root")).2).map Prod.fst =
      [str "GET" ++ str " " ++ []] ∧
    (demoRouter.Handle (str "GET") (str "/{$}") (logHandler "root")).1 =
      Outcome.panicked "http: invalid pattern" ∧
    (demoRouter.Handle (str "GET") (str "/{$}") (logHandler "root")).2.m.patterns.map
      Prod.fst = [] ∧
    (Router.sent demoRouter
        (demoRouter.Handle (str "GET") (str "/") (logHandler "root")).2).map Prod.fst =
      [str "GET" ++ str " " ++ str "/{$}"] ∧
    (Router.sent demoRouter
        (demoRouter.Handle (str "GET") (str "/hello/{$}") (logHandler "hello")).2).map Prod.fst =
      [str "GET" ++ str " " ++ str "/hello", str "GET" ++ str " " ++ str "/hello/{$}"] := by
  exact ⟨by decide, by decide, by decide, by decide, by decide, by decide, by decide⟩

end Muxw
